import Mathlib

/-!
# auto-rotate.c : pointer transformation matrices and the orientation handler

A shallow embedding of `src/auto-rotate.c`.

* A `float` or `double` value is the rational number it stands for. Every
  operation that rounds in C rounds here: to nearest, ties to even, to 53
  significant bits for `double` and 24 for `float`, each operation in its own
  type. The exponent range is not bounded: with 32-bit operands and a non-zero
  divisor every value of the program lies in the normal range of both formats.
  Infinities and NaNs (division by a zero width or height) have no model.
* The X server is modelled by the answers it gives to the queries the program
  makes (`XServer`), by an arbitrary reaction to the two requests that change
  something (`Display.respond`), and by the list of such requests sent so far
  (`Display.sent`).
* The constants of Xlib, XRandR and XInput2 have the values of the X11
  headers, which are not part of the repository.
* Logging (`g_print`) and the release of resources are left out.
-/

namespace AutoRotate

/-! ## Constants of the X11 headers used by the program -/

/-- Rotation bit `RR_Rotate_0` of `X11/extensions/randr.h`. -/
def RR_Rotate_0 : Nat := 1
/-- Rotation bit `RR_Rotate_90` of `X11/extensions/randr.h`. -/
def RR_Rotate_90 : Nat := 2
/-- Rotation bit `RR_Rotate_180` of `X11/extensions/randr.h`. -/
def RR_Rotate_180 : Nat := 4
/-- Rotation bit `RR_Rotate_270` of `X11/extensions/randr.h`. -/
def RR_Rotate_270 : Nat := 8
/-- Reflection bit `RR_Reflect_X` of `X11/extensions/randr.h`. -/
def RR_Reflect_X : Nat := 16
/-- Reflection bit `RR_Reflect_Y` of `X11/extensions/randr.h`. -/
def RR_Reflect_Y : Nat := 32
/-- Line 112: `#define RR_Reflect_All (RR_Reflect_X|RR_Reflect_Y)`. -/
def RR_Reflect_All : Nat := RR_Reflect_X ||| RR_Reflect_Y
/-- Connection state `RR_Connected` of `X11/extensions/randr.h`. -/
def RR_Connected : Nat := 0
/-- Device use `XIMasterPointer` of `X11/extensions/XI2.h`. -/
def XIMasterPointer : Int := 1
/-- Device use `XIMasterKeyboard` of `X11/extensions/XI2.h`. -/
def XIMasterKeyboard : Int := 2
/-- Device use `XISlavePointer` of `X11/extensions/XI2.h`. -/
def XISlavePointer : Int := 3
/-- Device use `XISlaveKeyboard` of `X11/extensions/XI2.h`. -/
def XISlaveKeyboard : Int := 4
/-- Device use `XIFloatingSlave` of `X11/extensions/XI2.h`. -/
def XIFloatingSlave : Int := 5
/-- Return code `Success` of `X11/X.h`. -/
def Success : Int := 0
/-- Property mode `PropModeReplace` of `X11/X.h`. -/
def PropModeReplace : Int := 0
/-- Timestamp `CurrentTime` of `X11/X.h`. -/
def CurrentTime : Nat := 0
/-- Line 17: `#define EXIT_FAILURE 1`. -/
def EXIT_FAILURE : Int := 1
/-- Line 18: `#define EXIT_SUCCESS 0`. -/
def EXIT_SUCCESS : Int := 0

/-! ## The matrix primitive (lines 20-35) -/

/-- Lines 20-22: `struct Matrix { float m[9]; }`, nine values indexed `0..8`. -/
structure Matrix where
  m : Fin 9 → ℚ

instance : DecidableEq Matrix := fun a b =>
  match a, b with
  | ⟨x⟩, ⟨y⟩ =>
    if h : x = y then isTrue (congrArg Matrix.mk h)
    else isFalse (fun h' => h (congrArg Matrix.m h'))

/-- Lines 24-27: `m->m[row * 3 + col] = val`. -/
def matrix_set (m : Matrix) (row col : Nat) (val : ℚ) : Matrix :=
  { m := fun i => if i.val = row * 3 + col then val else m.m i }

/-- Lines 29-35: `memset` to zero, then ones on the diagonal. -/
def matrix_set_unity (_m : Matrix) : Matrix :=
  let m : Matrix := { m := fun _ => 0 }
  let m := matrix_set m 0 0 1
  let m := matrix_set m 1 1 1
  matrix_set m 2 2 1

/-- Element `(row, col)` of a matrix, read the way `matrix_set` writes it. -/
def Matrix.entry (m : Matrix) (row col : Nat) : ℚ :=
  if h : row * 3 + col < 9 then m.m ⟨row * 3 + col, h⟩ else 0

/-- The nine values in storage order, which is row-major. -/
def Matrix.toList (m : Matrix) : List ℚ := List.ofFn m.m

/-- The matrix whose storage holds the given rows, first row first. -/
def Matrix.ofRows (a b c d e f g h i : ℚ) : Matrix :=
  { m := ![a, b, c, d, e, f, g, h, i] }

/-- A matrix of zeros; it stands for the contents of a `Matrix` variable before
`matrix_set_unity` overwrites all of it. -/
def zeroMatrix : Matrix := { m := fun _ => 0 }

/-! ## The X server as the program sees it -/

/-- The fields of `XRROutputInfo` the program reads (line 197). -/
structure XRROutputInfo where
  crtc : Nat
  connection : Nat
deriving DecidableEq, Repr

/-- The fields of `XRRCrtcInfo` the program reads (lines 231-233). -/
structure XRRCrtcInfo where
  x : Int
  y : Int
  width : Nat
  height : Nat
  rotation : Nat
deriving DecidableEq, Repr

/-- The fields of `XIDeviceInfo` the program reads (lines 257, 378, 379). -/
structure XIDeviceInfo where
  deviceid : Int
  name : String
  use : Int
deriving DecidableEq, Repr

/-- What `XRRConfigCurrentConfiguration` returns from a screen configuration
(line 322): the current size index and the current rotation bitmask. -/
structure XRRScreenConfiguration where
  current_size : Nat
  current_rotation : Nat
deriving DecidableEq, Repr

/-- The out-parameters and return code of `XIGetProperty` (lines 74-76); `data`
is the returned buffer read as `float`s. -/
structure PropertyReply where
  rc : Int
  type_return : Nat
  format_return : Int
  nitems : Nat
  bytes_after : Nat
  data : List ℚ
deriving DecidableEq

/-- The two calls of the program that ask the server to change something. -/
inductive Request where
  /-- Line 370: `XRRSetScreenConfig(dpy, screen_config, root, size, rotation, timestamp)`. -/
  | XRRSetScreenConfig (size_index : Nat) (rotation : Nat) (timestamp : Nat)
  /-- Lines 86-87: `XIChangeProperty(dpy, deviceid, property, type, format, mode, data, num_items)`;
  `data` holds the `num_items` values sent. -/
  | XIChangeProperty (deviceid : Int) (property type : Nat) (format mode : Int)
      (data : List ℚ) (num_items : Nat)
deriving DecidableEq

/-- The answers of the server to the queries the program makes. -/
structure XServer where
  /-- Value of `DisplayWidth(dpy, DefaultScreen(dpy))`. -/
  display_width : Int
  /-- Value of `DisplayHeight(dpy, DefaultScreen(dpy))`. -/
  display_height : Int
  /-- Result of `XRRGetScreenInfo(dpy, root)`, `none` for `NULL`. -/
  screen_info : Option XRRScreenConfiguration
  /-- Results of `XRRGetOutputInfo` for `res->outputs[0 .. res->noutput - 1]`. -/
  outputs : List XRROutputInfo
  /-- Result of `XRRGetCrtcInfo(dpy, res, crtc)`. -/
  crtc_info : Nat → XRRCrtcInfo
  /-- Result of `XIQueryDevice(dpy, XIAllDevices, &num_devices)`. -/
  devices : List XIDeviceInfo
  /-- Result of `XInternAtom(dpy, name, False)`, `0` for `None`. -/
  intern_atom : String → Nat
  /-- Result of `XIGetProperty(dpy, deviceid, property, 0, 9, False, type, ...)`. -/
  get_property : Int → Nat → Nat → PropertyReply

/-- A display connection: the server behind it, how the server changes when it
receives a request, and the requests sent on the connection so far. -/
structure Display where
  server : XServer
  respond : XServer → Request → XServer
  sent : List Request

/-- Sending a request: the server reacts and the request is recorded. -/
def Display.send (dpy : Display) (r : Request) : Display :=
  { dpy with server := dpy.respond dpy.server r, sent := dpy.sent ++ [r] }

/-! ## Floating point

The arithmetic of `double` and `float` in the source: IEEE 754 binary64 and
binary32, every operation rounded to nearest, ties to even, in the type of
its operands. A value is the rational number it stands for. -/

/-- The position of the leading bit of `n`, by halving; `fuel` bounds the number
of halvings. -/
def ilog2_fuel : Nat → Nat → Nat
  | 0, _ => 0
  | fuel + 1, n => if 2 ≤ n then ilog2_fuel fuel (n / 2) + 1 else 0

/-- The position of the leading bit of `n`: `2 ^ ilog2 n ≤ n < 2 ^ (ilog2 n + 1)`
for `n ≠ 0`. -/
def ilog2 (n : Nat) : Nat := ilog2_fuel n n

/-- The binary exponent `e` of the positive fraction `n / d`:
`2 ^ e ≤ n / d < 2 ^ (e + 1)`. -/
def binade (n d : Nat) : Int :=
  let e0 : Int := (ilog2 n : Int) - (ilog2 d : Int)
  let below : Bool := if 0 ≤ e0 then n < d * 2 ^ e0.toNat else n * 2 ^ (-e0).toNat < d
  if below then e0 - 1 else e0

/-- The fraction `(n / d) / 2 ^ s` as a pair of naturals. -/
def scaled (s : Int) (n d : Nat) : Nat × Nat :=
  if 0 ≤ s then (n, d * 2 ^ s.toNat) else (n * 2 ^ (-s).toNat, d)

/-- The natural number nearest to `N / D`, the even one when two are. -/
def round_half_even (N D : Nat) : Nat :=
  let f : Nat := N / D
  let r : Nat := N % D
  if 2 * r < D then f else if D < 2 * r then f + 1 else if f % 2 = 0 then f else f + 1

/-- The number `k * 2 ^ s`. -/
def scale_back (s : Int) (k : Nat) : ℚ :=
  if 0 ≤ s then ((k * 2 ^ s.toNat : Nat) : ℚ) else (k : ℚ) / ((2 ^ (-s).toNat : Nat) : ℚ)

/-- The positive fraction `n / d` rounded to `p` significant bits. -/
def round_nat (p n d : Nat) : ℚ :=
  let s : Int := binade n d - ((p : Int) - 1)
  scale_back s (round_half_even (scaled s n d).1 (scaled s n d).2)

/-- A rational rounded to `p` significant bits, to nearest, ties to even. The
exponent is not bounded: no overflow to infinity, no subnormal numbers. -/
def round_to_precision (p : Nat) (q : ℚ) : ℚ :=
  if q.num = 0 then 0
  else if q.num < 0 then -round_nat p q.num.natAbs q.den
  else round_nat p q.num.natAbs q.den

/-- Rounding to `double` (binary64, 53 significant bits). -/
def double_round (q : ℚ) : ℚ := round_to_precision 53 q

/-- Rounding to `float` (binary32, 24 significant bits). -/
def float_round (q : ℚ) : ℚ := round_to_precision 24 q

/-- The quotient of two `double`s. -/
def double_div (a b : ℚ) : ℚ := double_round (a / b)

/-- The conversion of a `double` to `float`, as in `float x = ...`. -/
def float_of_double (a : ℚ) : ℚ := float_round a

/-- The sum of two `float`s. -/
def float_add (a b : ℚ) : ℚ := float_round (a + b)

/-- The expression `1.0 * a / b` of lines 124-129 stored in a `float`: the
quotient is taken in `double` and then narrowed. The conversion of the `int`
operands to `double` and the product with `1.0` are exact. -/
def normalised (a b : Int) : ℚ :=
  float_of_double (double_div (1 * (a : ℚ)) (b : ℚ))

/-! ## Transform derivation (lines 94-180) -/

/-- Lines 94-109. -/
def matrix_s4 (m : Matrix) (x02 x12 d1 d2 : ℚ) (main_diag : Int) : Matrix :=
  let m := matrix_set m 0 2 x02
  let m := matrix_set m 1 2 x12
  if main_diag ≠ 0 then
    let m := matrix_set m 0 0 d1
    matrix_set m 1 1 d2
  else
    let m := matrix_set m 0 0 0
    let m := matrix_set m 1 1 0
    let m := matrix_set m 0 1 d1
    matrix_set m 1 0 d2

/-- Lines 114-180. The four quotients are taken in `double` and stored in
`float`s, the sums `x + w` and `y + h` are `float` sums, negation is exact.
The `switch` has no `default`: any other value of `rotation` leaves the unit
matrix. -/
def set_transformation_matrix (dpy : Display) (m : Matrix)
    (offset_x offset_y screen_width screen_height : Int) (rotation : Nat) : Matrix :=
  let width : Int := dpy.server.display_width
  let height : Int := dpy.server.display_height
  let x : ℚ := float_of_double (double_div (1 * (offset_x : ℚ)) (width : ℚ))
  let y : ℚ := float_of_double (double_div (1 * (offset_y : ℚ)) (height : ℚ))
  let w : ℚ := float_of_double (double_div (1 * (screen_width : ℚ)) (width : ℚ))
  let h : ℚ := float_of_double (double_div (1 * (screen_height : ℚ)) (height : ℚ))
  let m := matrix_set_unity m
  if rotation = RR_Rotate_0 ∨ rotation = RR_Rotate_180 ||| RR_Reflect_All then
    matrix_s4 m x y w h 1
  else if rotation = RR_Reflect_X ||| RR_Rotate_0 ∨ rotation = RR_Reflect_Y ||| RR_Rotate_180 then
    matrix_s4 m (float_add x w) y (-w) h 1
  else if rotation = RR_Reflect_Y ||| RR_Rotate_0 ∨ rotation = RR_Reflect_X ||| RR_Rotate_180 then
    matrix_s4 m x (float_add y h) w (-h) 1
  else if rotation = RR_Rotate_90 ∨ rotation = RR_Rotate_270 ||| RR_Reflect_All then
    matrix_s4 m (float_add x w) y (-w) h 0
  else if rotation = RR_Rotate_270 ∨ rotation = RR_Rotate_90 ||| RR_Reflect_All then
    matrix_s4 m x (float_add y h) w (-h) 0
  else if rotation = RR_Rotate_90 ||| RR_Reflect_X ∨ rotation = RR_Rotate_270 ||| RR_Reflect_Y then
    matrix_s4 m x y w h 0
  else if rotation = RR_Rotate_90 ||| RR_Reflect_Y ∨ rotation = RR_Rotate_270 ||| RR_Reflect_X then
    matrix_s4 m (float_add x w) (float_add y h) (-w) (-h) 0
  else if rotation = RR_Rotate_180 ∨ rotation = RR_Reflect_All ||| RR_Rotate_0 then
    matrix_s4 m (float_add x w) (float_add y h) (-w) (-h) 1
  else
    m

/-! ## Writing the matrix to a device (lines 43-92) -/

/-- Lines 43-92. The buffer returned by `XIGetProperty` is overwritten by
`memcpy` with the nine values of `m`, and `nitems` values of it are sent. -/
def apply_matrix (dpy : Display) (deviceid : Int) (m : Matrix) : Int × Display :=
  let prop_float := dpy.server.intern_atom "FLOAT"
  let prop_matrix := dpy.server.intern_atom "Coordinate Transformation Matrix"
  if prop_float = 0 then
    (1, dpy)
  else if prop_matrix = 0 then
    (1, dpy)
  else
    let reply := dpy.server.get_property deviceid prop_matrix prop_float
    if reply.rc ≠ Success ∨ prop_float ≠ reply.type_return ∨ reply.format_return ≠ 32 ∨
        reply.nitems ≠ 9 ∨ reply.bytes_after ≠ 0 then
      (1, dpy)
    else
      let data := m.toList ++ reply.data.drop 9
      let dpy := dpy.send (Request.XIChangeProperty deviceid prop_matrix prop_float
        reply.format_return PropModeReplace (data.take reply.nitems) reply.nitems)
      (0, dpy)

/-! ## Locating the output (lines 183-244) -/

/-- Lines 193-204: the loop over `res->outputs`. -/
def find_output_xrandr_loop : List XRROutputInfo → Option XRROutputInfo
  | [] => none
  | output_info :: rest =>
    if output_info.crtc ≠ 0 ∧ output_info.connection = RR_Connected then
      some output_info
    else
      find_output_xrandr_loop rest

/-- Lines 183-212; `none` is `NULL`. -/
def find_output_xrandr (dpy : Display) : Option XRROutputInfo :=
  find_output_xrandr_loop dpy.server.outputs

/-- Conversion of an `unsigned int` argument to an `int` parameter (32 bits). -/
def int_of_unsigned (n : Nat) : Int :=
  if n % 2 ^ 32 < 2 ^ 31 then (n % 2 ^ 32 : Nat) else ((n % 2 ^ 32 : Nat) : Int) - 2 ^ 32

/-- Lines 214-244. -/
def map_output_xrandr (dpy : Display) (deviceid : Int) : Int × Display :=
  match find_output_xrandr dpy with
  | some output_info =>
    let m := matrix_set_unity zeroMatrix
    let crtc_info := dpy.server.crtc_info output_info.crtc
    let m := set_transformation_matrix dpy m crtc_info.x crtc_info.y
      (int_of_unsigned crtc_info.width) (int_of_unsigned crtc_info.height) crtc_info.rotation
    apply_matrix dpy deviceid m
  | none => (EXIT_FAILURE, dpy)

/-! ## Device selection (lines 245-262) -/

/-- Lines 245-248. -/
def is_pointer (use : Int) : Bool :=
  use = XIMasterPointer || use = XISlavePointer

/-- Lines 250-253. -/
def is_keyboard (use : Int) : Bool :=
  use = XIMasterKeyboard || use = XISlaveKeyboard

/-- Lines 255-262. -/
def device_matches (info : XIDeviceInfo) : Bool :=
  if is_pointer info.use then true else false

/-! ## The orientation handler (lines 264-389) -/

/-- Lines 278-292: the chain of string comparisons; `none` is `recognized = 0`. -/
def new_rotation_of_label (label : String) : Option Nat :=
  if label = "normal" then some RR_Rotate_0
  else if label = "left-up" then some RR_Rotate_90
  else if label = "bottom-up" then some RR_Rotate_180
  else if label = "right-up" then some RR_Rotate_270
  else none

/-- Lines 375-381: the loop over the devices; the value returned by
`map_output_xrandr` is dropped. -/
def properties_changed_devices (dpy : Display) : List XIDeviceInfo → Display
  | [] => dpy
  | info :: rest =>
    if device_matches info then
      properties_changed_devices (map_output_xrandr dpy info.deviceid).2 rest
    else
      properties_changed_devices dpy rest

/-- Lines 264-389. `XOpenDisplay` is what `XOpenDisplay(NULL)` returns (`none` for
`NULL`), `has_orientation` says whether the changed properties contain
`AccelerometerOrientation`, `label` is the cached value of that property.
The result is the connection the handler used, `none` when it opened none. -/
def properties_changed (XOpenDisplay : Option Display) (has_orientation : Bool)
    (label : String) : Option Display :=
  if has_orientation then
    match new_rotation_of_label label with
    | some new_rotation =>
      match XOpenDisplay with
      | none => none
      | some dpy =>
        match dpy.server.screen_info with
        | none => some dpy
        | some screen_config =>
          let current_size := screen_config.current_size
          let dpy := dpy.send
            (Request.XRRSetScreenConfig current_size new_rotation CurrentTime)
          let info := dpy.server.devices
          some (properties_changed_devices dpy info)
    | none => none
  else
    none

/-- The requests on the connection a handler run used; none without connection. -/
def requests (r : Option Display) : List Request :=
  match r with
  | none => []
  | some dpy => dpy.sent


/-- Whether a request is a device property write (`XIChangeProperty`). -/
def Request.isPropertyWrite : Request → Bool
  | Request.XRRSetScreenConfig _ _ _ => false
  | Request.XIChangeProperty _ _ _ _ _ _ _ => true

/-! ## The table of section 4.2 of the specification -/

/-- Specification, section 3: the four rotations. -/
inductive RotationState where
  | none | rotate90 | rotate180 | rotate270
deriving DecidableEq, Repr, Fintype

/-- Specification, section 3: the four reflections. -/
inductive ReflectionState where
  | none | reflectX | reflectY | reflectXY
deriving DecidableEq, Repr, Fintype

/-- The RandR bit of a rotation. -/
def RotationState.bits : RotationState → Nat
  | .none => RR_Rotate_0
  | .rotate90 => RR_Rotate_90
  | .rotate180 => RR_Rotate_180
  | .rotate270 => RR_Rotate_270

/-- The RandR bits of a reflection. -/
def ReflectionState.bits : ReflectionState → Nat
  | .none => 0
  | .reflectX => RR_Reflect_X
  | .reflectY => RR_Reflect_Y
  | .reflectXY => RR_Reflect_X ||| RR_Reflect_Y

/-- The RandR bitmask of a (rotation, reflection) pair, the value of
`crtc_info->rotation`. -/
def rotationMask (rot : RotationState) (refl : ReflectionState) : Nat :=
  rot.bits ||| refl.bits

/-- One row of the table of section 4.2:
`(x02, x12, diag1, diag2, mainDiagonal?)`. -/
structure TableRow where
  x02 : ℚ
  x12 : ℚ
  diag1 : ℚ
  diag2 : ℚ
  mainDiagonal : Bool

/-- The table of section 4.2 of the specification, row by row. -/
def specTable (x y w h : ℚ) : RotationState → ReflectionState → TableRow
  | .none, .none | .rotate180, .reflectXY => ⟨x, y, w, h, true⟩
  | .rotate90, .none | .rotate270, .reflectXY => ⟨x + w, y, -w, h, false⟩
  | .rotate270, .none | .rotate90, .reflectXY => ⟨x, y + h, w, -h, false⟩
  | .rotate90, .reflectX | .rotate270, .reflectY => ⟨x, y, w, h, false⟩
  | .rotate90, .reflectY | .rotate270, .reflectX => ⟨x + w, y + h, -w, -h, false⟩
  | .none, .reflectX | .rotate180, .reflectY => ⟨x + w, y, -w, h, true⟩
  | .none, .reflectY | .rotate180, .reflectX => ⟨x, y + h, w, -h, true⟩
  | .rotate180, .none | .none, .reflectXY => ⟨x + w, y + h, -w, -h, true⟩

/-- The table of section 4.2 with the two sums it uses given apart: `xw` in
the place of `x + w` and `yh` in the place of `y + h`. -/
def sumTable (x y w h xw yh : ℚ) : RotationState → ReflectionState → TableRow
  | .none, .none | .rotate180, .reflectXY => ⟨x, y, w, h, true⟩
  | .rotate90, .none | .rotate270, .reflectXY => ⟨xw, y, -w, h, false⟩
  | .rotate270, .none | .rotate90, .reflectXY => ⟨x, yh, w, -h, false⟩
  | .rotate90, .reflectX | .rotate270, .reflectY => ⟨x, y, w, h, false⟩
  | .rotate90, .reflectY | .rotate270, .reflectX => ⟨xw, yh, -w, -h, false⟩
  | .none, .reflectX | .rotate180, .reflectY => ⟨xw, y, -w, h, true⟩
  | .none, .reflectY | .rotate180, .reflectX => ⟨x, yh, w, -h, true⟩
  | .rotate180, .none | .none, .reflectXY => ⟨xw, yh, -w, -h, true⟩

/-- The table of section 4.2 with the sums `x + w` and `y + h` taken as `float`
sums. -/
def floatTable (x y w h : ℚ) (rot : RotationState) (refl : ReflectionState) : TableRow :=
  sumTable x y w h (float_add x w) (float_add y h) rot refl

/-- The matrix a table row stands for: translation terms in the last column,
bottom row `[0,0,1]`, the two scale terms on the diagonal in a main row and
on the swapped positions in an off row. -/
def TableRow.matrix (r : TableRow) : Matrix :=
  if r.mainDiagonal then
    Matrix.ofRows r.diag1 0 r.x02 0 r.diag2 r.x12 0 0 1
  else
    Matrix.ofRows 0 r.diag1 r.x02 r.diag2 0 r.x12 0 0 1

/-- The class of a (rotation, reflection) pair, read off the table of section
4.2: whether the row is a main row, whether `diag1` is `-w`, whether `diag2`
is `-h`. -/
def tableClass : RotationState → ReflectionState → Bool × Bool × Bool
  | .none, .none | .rotate180, .reflectXY => (true, false, false)
  | .rotate90, .none | .rotate270, .reflectXY => (false, true, false)
  | .rotate270, .none | .rotate90, .reflectXY => (false, false, true)
  | .rotate90, .reflectX | .rotate270, .reflectY => (false, false, false)
  | .rotate90, .reflectY | .rotate270, .reflectX => (false, true, true)
  | .none, .reflectX | .rotate180, .reflectY => (true, true, false)
  | .none, .reflectY | .rotate180, .reflectX => (true, false, true)
  | .rotate180, .none | .none, .reflectXY => (true, true, true)

/-- The matrix of a class: the row with the signs the class names; `xw` and
`yh` are the translation terms of the rows that use a sum. -/
def classMatrix (x y w h xw yh : ℚ) (c : Bool × Bool × Bool) : Matrix :=
  TableRow.matrix
    { x02 := if c.2.1 then xw else x
      x12 := if c.2.2 then yh else y
      diag1 := if c.2.1 then -w else w
      diag2 := if c.2.2 then -h else h
      mainDiagonal := c.1 }

/-- A matrix applied to a point of the plane as a homogeneous transform: the
point `(u, v, 1)` is multiplied by the matrix and the result is divided by
its third coordinate. -/
def Matrix.apply (m : Matrix) (p : ℚ × ℚ) : ℚ × ℚ :=
  let X := m.entry 0 0 * p.1 + m.entry 0 1 * p.2 + m.entry 0 2
  let Y := m.entry 1 0 * p.1 + m.entry 1 1 * p.2 + m.entry 1 2
  let W := m.entry 2 0 * p.1 + m.entry 2 1 * p.2 + m.entry 2 2
  (X / W, Y / W)

/-! ## Example data -/

/-- The server of a laptop whose 1920x1080 panel is the whole screen and is
shown with the given rotation mask. It has a core pointer, a touchscreen whose
matrix property is malformed (three items), a touchpad, two keyboards and a
floating device. -/
def panelServer (rotation : Nat) : XServer :=
  let turned : Bool := rotation &&& (RR_Rotate_90 ||| RR_Rotate_270) ≠ 0
  { display_width := if turned then 1080 else 1920
    display_height := if turned then 1920 else 1080
    screen_info := some { current_size := 0, current_rotation := rotation }
    outputs := [⟨0, 1⟩, ⟨63, RR_Connected⟩]
    crtc_info := fun _ =>
      { x := 0, y := 0, width := if turned then 1080 else 1920,
        height := if turned then 1920 else 1080, rotation := rotation }
    devices := [⟨2, "Virtual core pointer", XIMasterPointer⟩,
                ⟨3, "Virtual core keyboard", XIMasterKeyboard⟩,
                ⟨13, "ELAN Touchscreen", XISlavePointer⟩,
                ⟨12, "AT Translated Set 2 keyboard", XISlaveKeyboard⟩,
                ⟨11, "SYNA2B29:00 06CB:77C6 Touchpad", XISlavePointer⟩,
                ⟨14, "detached tablet", XIFloatingSlave⟩]
    intern_atom := fun name =>
      if name = "FLOAT" then 291
      else if name = "Coordinate Transformation Matrix" then 158 else 500
    get_property := fun deviceid property type =>
      if deviceid = 13 then ⟨Success, type, 32, 3, 0, [1, 0, 0]⟩
      else if property = 158 then ⟨Success, 291, 32, 9, 0, [1, 0, 0, 0, 1, 0, 0, 0, 1]⟩
      else ⟨1, 0, 0, 0, 0, []⟩ }

/-- A server that turns the panel when asked to and keeps everything else. -/
def panelRespond (s : XServer) : Request → XServer
  | Request.XRRSetScreenConfig _ rotation _ => panelServer rotation
  | Request.XIChangeProperty _ _ _ _ _ _ _ => s

/-- A fresh connection to the laptop with the panel in its normal orientation. -/
def panel : Display :=
  { server := panelServer RR_Rotate_0, respond := panelRespond, sent := [] }

/-- A fresh connection to the laptop with the panel reflected along X. -/
def reflectedPanel : Display :=
  { server := panelServer (RR_Rotate_0 ||| RR_Reflect_X), respond := panelRespond, sent := [] }

/-- A fresh connection to a server none of whose outputs is both connected and
driven by a crtc, and which stays so. -/
def unplugged : Display :=
  { server := { panelServer RR_Rotate_0 with outputs := [⟨0, RR_Connected⟩, ⟨63, 1⟩] }
    respond := fun s _ => s
    sent := [] }

/-- A fresh connection to a server whose whole screen is 3x3. -/
def tinyScreen : Display :=
  { server := { panelServer RR_Rotate_0 with display_width := 3, display_height := 3 }
    respond := fun s _ => s
    sent := [] }

/-- A fresh connection to a server whose screen of 3286x1080 holds a 1920x1080
output on the left and a 1366x768 output to its right. -/
def wideDesk : Display :=
  { server := { panelServer RR_Rotate_0 with display_width := 3286, display_height := 1080 }
    respond := fun s _ => s
    sent := [] }

/-! # Theorems -/

/-- Two matrices are equal when their nine entries are. -/
theorem Matrix.ext_iff_m (a b : Matrix) : a = b ↔ a.m = b.m := by
  cases a; cases b; simp

/-! ### Reading the entries of a matrix given by its rows -/

section ofRows
variable (a b c d e f g h i : ℚ)

theorem Matrix.ofRows_entry_0_0 : (Matrix.ofRows a b c d e f g h i).entry 0 0 = a := rfl
theorem Matrix.ofRows_entry_0_1 : (Matrix.ofRows a b c d e f g h i).entry 0 1 = b := rfl
theorem Matrix.ofRows_entry_0_2 : (Matrix.ofRows a b c d e f g h i).entry 0 2 = c := rfl
theorem Matrix.ofRows_entry_1_0 : (Matrix.ofRows a b c d e f g h i).entry 1 0 = d := rfl
theorem Matrix.ofRows_entry_1_1 : (Matrix.ofRows a b c d e f g h i).entry 1 1 = e := rfl
theorem Matrix.ofRows_entry_1_2 : (Matrix.ofRows a b c d e f g h i).entry 1 2 = f := rfl
theorem Matrix.ofRows_entry_2_0 : (Matrix.ofRows a b c d e f g h i).entry 2 0 = g := rfl
theorem Matrix.ofRows_entry_2_1 : (Matrix.ofRows a b c d e f g h i).entry 2 1 = h := rfl
theorem Matrix.ofRows_entry_2_2 : (Matrix.ofRows a b c d e f g h i).entry 2 2 = i := rfl

end ofRows

/-! ## Floating point: theorems -/

/-- Enough fuel gives the binary logarithm. -/
theorem ilog2_fuel_eq (fuel n : Nat) (h : n ≤ fuel) : ilog2_fuel fuel n = Nat.log2 n := by
  induction fuel generalizing n with
  | zero =>
    have : n = 0 := by omega
    subst this
    simp [ilog2_fuel]
  | succ fuel ih =>
    unfold ilog2_fuel
    rw [Nat.log2]
    by_cases h2 : 2 ≤ n
    · have : n / 2 ≤ fuel := by omega
      simp [h2, ih _ this]
    · simp [h2]

/-- The fuel `ilog2` takes is enough. -/
theorem ilog2_eq (n : Nat) : ilog2 n = Nat.log2 n := ilog2_fuel_eq n n (le_refl n)

/-- A positive fraction is above the power of two one below the difference of
the logarithms of its terms. -/
theorem zpow_lt_div (n d : Nat) (hn : n ≠ 0) (hd : d ≠ 0) :
    (2 : ℚ) ^ ((ilog2 n : Int) - (ilog2 d : Int) - 1) < (n : ℚ) / (d : ℚ) := by
  rw [ilog2_eq, ilog2_eq]
  have h1 : (2 : ℚ) ^ (Nat.log2 n) ≤ (n : ℚ) := by
    exact_mod_cast Nat.log2_self_le hn
  have h2 : (d : ℚ) < (2 : ℚ) ^ (Nat.log2 d + 1) := by
    exact_mod_cast (Nat.lt_log2_self : d < 2 ^ (d.log2 + 1))
  have hd' : (0 : ℚ) < d := by exact_mod_cast Nat.pos_of_ne_zero hd
  have e : (2 : ℚ) ^ ((Nat.log2 n : Int) - (Nat.log2 d : Int) - 1)
      = (2 : ℚ) ^ (Nat.log2 n) / (2 : ℚ) ^ (Nat.log2 d + 1) := by
    rw [show (Nat.log2 n : Int) - (Nat.log2 d : Int) - 1
      = (Nat.log2 n : Int) - ((Nat.log2 d + 1 : Nat) : Int) by push_cast; ring]
    rw [zpow_sub₀ (by norm_num : (2 : ℚ) ≠ 0), zpow_natCast, zpow_natCast]
  rw [e]
  have hpos : (0 : ℚ) < (2 : ℚ) ^ (Nat.log2 d + 1) := by positivity
  calc (2 : ℚ) ^ (Nat.log2 n) / (2 : ℚ) ^ (Nat.log2 d + 1)
      ≤ (n : ℚ) / (2 : ℚ) ^ (Nat.log2 d + 1) := by
        apply div_le_div_of_nonneg_right h1 (le_of_lt hpos)
    _ < (n : ℚ) / (d : ℚ) := by
        apply div_lt_div_of_pos_left _ hd' h2
        exact_mod_cast Nat.pos_of_ne_zero hn

/-- The exponent found is at most the difference of the logarithms. -/
theorem binade_le (n d : Nat) : binade n d ≤ (ilog2 n : Int) - (ilog2 d : Int) := by
  unfold binade
  simp only []
  split <;> omega

/-- A fraction that is at least `2 ^ s` scales to a fraction that is at least 1. -/
theorem scaled_le (s : Int) (n d : Nat) (hd : d ≠ 0) (h : (2 : ℚ) ^ s ≤ (n : ℚ) / (d : ℚ)) :
    (scaled s n d).2 ≤ (scaled s n d).1 ∧ 0 < (scaled s n d).2 := by
  have hd' : (0 : ℚ) < d := by exact_mod_cast Nat.pos_of_ne_zero hd
  unfold scaled
  by_cases hs : 0 ≤ s
  · rw [if_pos hs]
    obtain ⟨t, rfl⟩ := Int.eq_ofNat_of_zero_le hs
    simp only [Int.toNat_ofNat, zpow_natCast] at h ⊢
    constructor
    · have h' := (le_div_iff₀ hd').mp h
      have : ((d * 2 ^ t : Nat) : ℚ) ≤ (n : ℚ) := by
        push_cast
        linarith [mul_comm ((2 : ℚ) ^ t) (d : ℚ)]
      exact_mod_cast this
    · positivity
  · rw [if_neg hs]
    have hs' : 0 ≤ -s := by omega
    obtain ⟨t, ht⟩ := Int.eq_ofNat_of_zero_le hs'
    have hst : s = -(t : Int) := by omega
    rw [ht]
    simp only [Int.toNat_ofNat]
    rw [hst, zpow_neg, zpow_natCast] at h
    constructor
    · have hpow : (0 : ℚ) < (2 : ℚ) ^ t := by positivity
      have h1 : (1 : ℚ) ≤ (n : ℚ) / (d : ℚ) * (2 : ℚ) ^ t := by
        have := mul_le_mul_of_nonneg_right h (le_of_lt hpow)
        rwa [inv_mul_cancel₀ (ne_of_gt hpow)] at this
      have h2 : (d : ℚ) ≤ (n : ℚ) * (2 : ℚ) ^ t := by
        have := mul_le_mul_of_nonneg_left h1 (le_of_lt hd')
        have e : (d : ℚ) * ((n : ℚ) / (d : ℚ) * (2 : ℚ) ^ t) = (n : ℚ) * (2 : ℚ) ^ t := by
          field_simp
        rw [e, mul_one] at this
        exact this
      exact_mod_cast h2
    · exact Nat.pos_of_ne_zero hd

/-- Rounding to an integer does not go below the integer part. -/
theorem round_half_even_ge (N D : Nat) : N / D ≤ round_half_even N D := by
  unfold round_half_even
  simp only []
  split
  · exact le_refl _
  · split
    · exact Nat.le_succ _
    · split
      · exact le_refl _
      · exact Nat.le_succ _

/-- A positive multiple of a power of two is positive. -/
theorem scale_back_pos (s : Int) (k : Nat) (hk : 0 < k) : 0 < scale_back s k := by
  unfold scale_back
  split
  · have : 0 < k * 2 ^ s.toNat := Nat.mul_pos hk (by positivity)
    exact_mod_cast this
  · have hk' : (0 : ℚ) < k := by exact_mod_cast hk
    have : (0 : ℚ) < ((2 ^ (-s).toNat : Nat) : ℚ) := by
      have : 0 < 2 ^ (-s).toNat := by positivity
      exact_mod_cast this
    exact div_pos hk' this

/-- Rounding a positive fraction to two bits or more gives a positive number. -/
theorem round_nat_pos (p n d : Nat) (hp : 2 ≤ p) (hn : n ≠ 0) (hd : d ≠ 0) :
    0 < round_nat p n d := by
  unfold round_nat
  simp only []
  have hs : binade n d - ((p : Int) - 1) ≤ (ilog2 n : Int) - (ilog2 d : Int) - 1 := by
    have := binade_le n d
    have hp' : (2 : Int) ≤ (p : Int) := by exact_mod_cast hp
    omega
  have hpow : (2 : ℚ) ^ (binade n d - ((p : Int) - 1)) ≤ (n : ℚ) / (d : ℚ) :=
    le_trans (zpow_le_zpow_right₀ (by norm_num) hs) (le_of_lt (zpow_lt_div n d hn hd))
  obtain ⟨hle, hpos⟩ := scaled_le _ n d hd hpow
  apply scale_back_pos
  exact lt_of_lt_of_le (Nat.div_pos hle hpos) (round_half_even_ge _ _)

/-- Rounding keeps a positive number positive: nothing rounds to zero. -/
theorem round_to_precision_pos (p : Nat) (q : ℚ) (hp : 2 ≤ p) (hq : 0 < q) :
    0 < round_to_precision p q := by
  have hnum : 0 < q.num := Rat.num_pos.mpr hq
  unfold round_to_precision
  rw [if_neg (ne_of_gt hnum), if_neg (not_lt.mpr (le_of_lt hnum))]
  exact round_nat_pos p _ _ hp (by omega) q.den_nz

/-- Zero rounds to zero. -/
theorem round_to_precision_zero (p : Nat) : round_to_precision p 0 = 0 := by
  simp [round_to_precision]

/-- One is a `double` and a `float`. -/
theorem float_round_one : double_round 1 = 1 ∧ float_round 1 = 1 := by
  constructor <;> decide!

/-- Known values: 2/3 and 1/10 as `double` and as `float`. -/
theorem float_round_known :
    double_round (2 / 3) = 6004799503160661 / 9007199254740992 ∧
    float_of_double (double_round (2 / 3)) = 11184811 / 16777216 ∧
    double_round (1 / 10) = 3602879701896397 / 36028797018963968 ∧
    float_of_double (double_round (1 / 10)) = 13421773 / 134217728 := by
  refine ⟨?_, ?_, ?_, ?_⟩ <;> decide!

/-- The scaled pair is the fraction divided by `2 ^ s`. -/
theorem scaled_eq (s : Int) (n d : Nat) (hd : d ≠ 0) :
    ((scaled s n d).1 : ℚ) / ((scaled s n d).2 : ℚ) = (n : ℚ) / (d : ℚ) / (2 : ℚ) ^ s := by
  have hd' : (d : ℚ) ≠ 0 := by exact_mod_cast hd
  unfold scaled
  by_cases hs : 0 ≤ s
  · rw [if_pos hs]
    obtain ⟨t, rfl⟩ := Int.eq_ofNat_of_zero_le hs
    simp only [Int.toNat_ofNat, zpow_natCast]
    push_cast
    rw [div_div]
  · rw [if_neg hs]
    have hs' : 0 ≤ -s := by omega
    obtain ⟨t, ht⟩ := Int.eq_ofNat_of_zero_le hs'
    have hst : s = -(t : Int) := by omega
    rw [ht]
    simp only [Int.toNat_ofNat]
    rw [hst, zpow_neg, zpow_natCast]
    push_cast
    field_simp

/-- The value of `scale_back`. -/
theorem scale_back_eq (s : Int) (k : Nat) : scale_back s k = (k : ℚ) * (2 : ℚ) ^ s := by
  unfold scale_back
  by_cases hs : 0 ≤ s
  · rw [if_pos hs]
    obtain ⟨t, rfl⟩ := Int.eq_ofNat_of_zero_le hs
    simp only [Int.toNat_ofNat, zpow_natCast]
    push_cast
    rfl
  · rw [if_neg hs]
    have hs' : 0 ≤ -s := by omega
    obtain ⟨t, ht⟩ := Int.eq_ofNat_of_zero_le hs'
    have hst : s = -(t : Int) := by omega
    rw [ht]
    simp only [Int.toNat_ofNat]
    rw [hst, zpow_neg, zpow_natCast]
    push_cast
    rw [div_eq_mul_inv]

/-- The rounded integer is within one half of the fraction. -/
theorem round_half_even_near (N D : Nat) (hD : 0 < D) :
    |(round_half_even N D : ℚ) - (N : ℚ) / (D : ℚ)| ≤ 1 / 2 := by
  have hD' : (0 : ℚ) < D := by exact_mod_cast hD
  have hdiv : (N : ℚ) = (D : ℚ) * ((N / D : Nat) : ℚ) + ((N % D : Nat) : ℚ) := by
    exact_mod_cast (Nat.div_add_mod N D).symm
  have hq : (N : ℚ) / (D : ℚ) = ((N / D : Nat) : ℚ) + ((N % D : Nat) : ℚ) / (D : ℚ) := by
    rw [hdiv]
    field_simp
    ring
  have hr0 : (0 : ℚ) ≤ ((N % D : Nat) : ℚ) / (D : ℚ) := by positivity
  unfold round_half_even
  simp only []
  rw [hq, abs_le]
  by_cases h1 : 2 * (N % D) < D
  · rw [if_pos h1]
    have : (2 : ℚ) * ((N % D : Nat) : ℚ) < D := by exact_mod_cast h1
    have : ((N % D : Nat) : ℚ) / (D : ℚ) < 1 / 2 := by
      rw [div_lt_iff₀ hD']; linarith
    constructor <;> linarith
  · rw [if_neg h1]
    by_cases h2 : D < 2 * (N % D)
    · rw [if_pos h2]
      have hlt : ((N % D : Nat) : ℚ) < D := by exact_mod_cast Nat.mod_lt N hD
      have h2' : (D : ℚ) < 2 * ((N % D : Nat) : ℚ) := by exact_mod_cast h2
      have hb1 : ((N % D : Nat) : ℚ) / (D : ℚ) < 1 := by
        rw [div_lt_iff₀ hD']; linarith
      have hb2 : 1 / 2 < ((N % D : Nat) : ℚ) / (D : ℚ) := by
        rw [lt_div_iff₀ hD']; linarith
      push_cast
      constructor <;> linarith
    · rw [if_neg h2]
      have heq : 2 * (N % D) = D := by omega
      have heq' : (2 : ℚ) * ((N % D : Nat) : ℚ) = D := by exact_mod_cast heq
      have hhalf : ((N % D : Nat) : ℚ) / (D : ℚ) = 1 / 2 := by
        rw [div_eq_iff (ne_of_gt hD')]; linarith
      split
      · constructor <;> linarith
      · push_cast
        constructor <;> linarith

/-- The result of `round_nat` is a multiple of `2 ^ s`, with `s` the exponent of
the fraction less `p - 1`, and it is within half of `2 ^ s` of the fraction:
no multiple of `2 ^ s` is nearer. -/
theorem round_nat_near (p n d : Nat) (hd : d ≠ 0) :
    ∃ k : Nat, round_nat p n d = (k : ℚ) * (2 : ℚ) ^ (binade n d - ((p : Int) - 1)) ∧
      |round_nat p n d - (n : ℚ) / (d : ℚ)|
        ≤ (2 : ℚ) ^ (binade n d - ((p : Int) - 1)) / 2 := by
  have hpow : (0 : ℚ) < (2 : ℚ) ^ (binade n d - ((p : Int) - 1)) := by positivity
  have hD : 0 < (scaled (binade n d - ((p : Int) - 1)) n d).2 := by
    unfold scaled
    split
    · exact Nat.mul_pos (Nat.pos_of_ne_zero hd) (by positivity)
    · exact Nat.pos_of_ne_zero hd
  refine ⟨round_half_even (scaled (binade n d - ((p : Int) - 1)) n d).1
    (scaled (binade n d - ((p : Int) - 1)) n d).2, ?_, ?_⟩
  · unfold round_nat
    simp only []
    rw [scale_back_eq]
  · unfold round_nat
    simp only []
    rw [scale_back_eq]
    have hnear := round_half_even_near (scaled (binade n d - ((p : Int) - 1)) n d).1
      (scaled (binade n d - ((p : Int) - 1)) n d).2 hD
    rw [scaled_eq _ n d hd] at hnear
    have e : (round_half_even (scaled (binade n d - ((p : Int) - 1)) n d).1
          (scaled (binade n d - ((p : Int) - 1)) n d).2 : ℚ)
          * (2 : ℚ) ^ (binade n d - ((p : Int) - 1)) - (n : ℚ) / (d : ℚ)
        = ((round_half_even (scaled (binade n d - ((p : Int) - 1)) n d).1
          (scaled (binade n d - ((p : Int) - 1)) n d).2 : ℚ)
          - (n : ℚ) / (d : ℚ) / (2 : ℚ) ^ (binade n d - ((p : Int) - 1)))
          * (2 : ℚ) ^ (binade n d - ((p : Int) - 1)) := by
      field_simp
      ring
    rw [e, abs_mul, abs_of_pos hpow]
    calc _ ≤ 1 / 2 * (2 : ℚ) ^ (binade n d - ((p : Int) - 1)) :=
          mul_le_mul_of_nonneg_right hnear (le_of_lt hpow)
      _ = (2 : ℚ) ^ (binade n d - ((p : Int) - 1)) / 2 := by ring

/-- A positive fraction is below the power of two one above the difference of
the logarithms of its terms. -/
theorem div_lt_zpow (n d : Nat) (hd : d ≠ 0) :
    (n : ℚ) / (d : ℚ) < (2 : ℚ) ^ ((ilog2 n : Int) - (ilog2 d : Int) + 1) := by
  rw [ilog2_eq, ilog2_eq]
  have h1 : (n : ℚ) < (2 : ℚ) ^ (Nat.log2 n + 1) := by
    exact_mod_cast (Nat.lt_log2_self : n < 2 ^ (n.log2 + 1))
  have h2 : (2 : ℚ) ^ (Nat.log2 d) ≤ (d : ℚ) := by
    exact_mod_cast Nat.log2_self_le hd
  have hd' : (0 : ℚ) < d := by exact_mod_cast Nat.pos_of_ne_zero hd
  have e : (2 : ℚ) ^ ((Nat.log2 n : Int) - (Nat.log2 d : Int) + 1)
      = (2 : ℚ) ^ (Nat.log2 n + 1) / (2 : ℚ) ^ (Nat.log2 d) := by
    rw [show (Nat.log2 n : Int) - (Nat.log2 d : Int) + 1
      = ((Nat.log2 n + 1 : Nat) : Int) - (Nat.log2 d : Int) by push_cast; ring]
    rw [zpow_sub₀ (by norm_num : (2 : ℚ) ≠ 0), zpow_natCast, zpow_natCast]
  rw [e]
  have hpos : (0 : ℚ) < (2 : ℚ) ^ (Nat.log2 d) := by positivity
  have hpos' : (0 : ℚ) < (2 : ℚ) ^ (Nat.log2 n + 1) := by positivity
  calc (n : ℚ) / (d : ℚ) < (2 : ℚ) ^ (Nat.log2 n + 1) / (d : ℚ) :=
        div_lt_div_of_pos_right h1 hd'
    _ ≤ (2 : ℚ) ^ (Nat.log2 n + 1) / (2 : ℚ) ^ (Nat.log2 d) :=
        div_le_div_of_nonneg_left (le_of_lt hpos') hpos h2

/-- The comparison of a fraction with a power of two, in natural numbers. -/
theorem div_lt_zpow_iff (s : Int) (n d : Nat) (hd : d ≠ 0) :
    (n : ℚ) / (d : ℚ) < (2 : ℚ) ^ s ↔
      (if 0 ≤ s then n < d * 2 ^ s.toNat else n * 2 ^ (-s).toNat < d) := by
  have hd' : (0 : ℚ) < d := by exact_mod_cast Nat.pos_of_ne_zero hd
  by_cases hs : 0 ≤ s
  · rw [if_pos hs]
    obtain ⟨t, rfl⟩ := Int.eq_ofNat_of_zero_le hs
    simp only [Int.toNat_ofNat, zpow_natCast]
    rw [div_lt_iff₀ hd']
    constructor
    · intro h
      have : (n : ℚ) < ((d * 2 ^ t : Nat) : ℚ) := by push_cast; linarith
      exact_mod_cast this
    · intro h
      have : (n : ℚ) < ((d * 2 ^ t : Nat) : ℚ) := by exact_mod_cast h
      push_cast at this
      linarith
  · rw [if_neg hs]
    have hs' : 0 ≤ -s := by omega
    obtain ⟨t, ht⟩ := Int.eq_ofNat_of_zero_le hs'
    have hst : s = -(t : Int) := by omega
    rw [ht]
    simp only [Int.toNat_ofNat]
    rw [hst, zpow_neg, zpow_natCast]
    have hpow : (0 : ℚ) < (2 : ℚ) ^ t := by positivity
    rw [div_lt_iff₀ hd', inv_mul_eq_div, lt_div_iff₀ hpow]
    constructor
    · intro h
      have : ((n * 2 ^ t : Nat) : ℚ) < (d : ℚ) := by push_cast; exact h
      exact_mod_cast this
    · intro h
      have : ((n * 2 ^ t : Nat) : ℚ) < (d : ℚ) := by exact_mod_cast h
      push_cast at this
      exact this

/-- The exponent found is the binary exponent of the fraction. -/
theorem binade_spec (n d : Nat) (hn : n ≠ 0) (hd : d ≠ 0) :
    (2 : ℚ) ^ binade n d ≤ (n : ℚ) / (d : ℚ) ∧
    (n : ℚ) / (d : ℚ) < (2 : ℚ) ^ (binade n d + 1) := by
  have hiff := div_lt_zpow_iff ((ilog2 n : Int) - (ilog2 d : Int)) n d hd
  unfold binade
  simp only []
  by_cases hs : 0 ≤ (ilog2 n : Int) - (ilog2 d : Int)
  · simp only [hs, if_true] at hiff ⊢
    by_cases hb : n < d * 2 ^ ((ilog2 n : Int) - (ilog2 d : Int)).toNat
    · simp only [hb, decide_True, if_true]
      refine ⟨le_of_lt (zpow_lt_div n d hn hd), ?_⟩
      rw [sub_add_cancel]
      exact hiff.mpr hb
    · simp only [hb, decide_False, Bool.false_eq_true, if_false]
      exact ⟨not_lt.mp (fun h => hb (hiff.mp h)), div_lt_zpow n d hd⟩
  · simp only [hs, if_false] at hiff ⊢
    by_cases hb : n * 2 ^ (-((ilog2 n : Int) - (ilog2 d : Int))).toNat < d
    · simp only [hb, decide_True, if_true]
      refine ⟨le_of_lt (zpow_lt_div n d hn hd), ?_⟩
      rw [sub_add_cancel]
      exact hiff.mpr hb
    · simp only [hb, decide_False, Bool.false_eq_true, if_false]
      exact ⟨not_lt.mp (fun h => hb (hiff.mp h)), div_lt_zpow n d hd⟩

/-- On a tie the rounded integer is the even one. -/
theorem round_half_even_tie (N D : Nat) (h : 2 * (N % D) = D) :
    round_half_even N D % 2 = 0 := by
  unfold round_half_even
  simp only []
  rw [if_neg (by omega), if_neg (by omega)]
  split <;> omega

/-- A zero numerator gives the `float` zero. -/
theorem normalised_zero (b : Int) : normalised 0 b = 0 := by
  simp [normalised, float_of_double, float_round, double_div, double_round,
    round_to_precision_zero]

/-- A number over itself gives the `float` one. -/
theorem normalised_self (b : Int) (hb : 0 < b) : normalised b b = 1 := by
  have hb' : (b : ℚ) ≠ 0 := by
    have : (0 : ℚ) < b := by exact_mod_cast hb
    exact ne_of_gt this
  simp only [normalised, float_of_double, double_div, one_mul, div_self hb']
  rw [float_round_one.1, float_round_one.2]

/-- A positive number over a positive number gives a positive `float`. -/
theorem normalised_pos (a b : Int) (ha : 0 < a) (hb : 0 < b) : 0 < normalised a b := by
  have ha' : (0 : ℚ) < a := by exact_mod_cast ha
  have hb' : (0 : ℚ) < b := by exact_mod_cast hb
  unfold normalised float_of_double double_div float_round double_round
  apply round_to_precision_pos _ _ (by norm_num)
  apply round_to_precision_pos _ _ (by norm_num)
  rw [one_mul]
  exact div_pos ha' hb'

/-- A number that is not negative over a positive number gives a `float` that
is not negative. -/
theorem normalised_nonneg (a b : Int) (ha : 0 ≤ a) (hb : 0 < b) : 0 ≤ normalised a b := by
  rcases eq_or_lt_of_le ha with h | h
  · rw [← h, normalised_zero]
  · exact le_of_lt (normalised_pos a b h hb)

/-! ## Transform derivation: theorems -/

/-- The table of the specification is the table with exact sums. -/
theorem specTable_eq_sumTable (x y w h : ℚ) (rot : RotationState) (refl : ReflectionState) :
    specTable x y w h rot refl = sumTable x y w h (x + w) (y + h) rot refl := by
  cases rot <;> cases refl <;> rfl

/-- Every one of the sixteen masks selects the case of the `switch` that the
table lists, with the `float` values of the quotients and the `float` sums. -/
theorem set_transformation_matrix_table (dpy : Display) (m : Matrix)
    (offset_x offset_y screen_width screen_height : Int)
    (rot : RotationState) (refl : ReflectionState) :
    set_transformation_matrix dpy m offset_x offset_y screen_width screen_height
        (rotationMask rot refl)
      = (floatTable (normalised offset_x dpy.server.display_width)
          (normalised offset_y dpy.server.display_height)
          (normalised screen_width dpy.server.display_width)
          (normalised screen_height dpy.server.display_height) rot refl).matrix := by
  rw [Matrix.ext_iff_m]
  funext i
  cases rot <;> cases refl <;>
    simp [set_transformation_matrix, rotationMask, RotationState.bits, ReflectionState.bits,
      RR_Rotate_0, RR_Rotate_90, RR_Rotate_180, RR_Rotate_270, RR_Reflect_X, RR_Reflect_Y,
      RR_Reflect_All, floatTable, sumTable, normalised, TableRow.matrix, matrix_s4, matrix_set,
      matrix_set_unity, Matrix.ofRows] <;>
    fin_cases i <;> simp <;> rfl

/-- The sixteen (rotation, reflection) pairs have sixteen different masks. -/
theorem rotationMask_injective :
    ∀ r₁ r₂ : RotationState, ∀ s₁ s₂ : ReflectionState,
      rotationMask r₁ s₁ = rotationMask r₂ s₂ → r₁ = r₂ ∧ s₁ = s₂ := by
  decide

/-- C1, as the code has it. For each of the 16 (rotation, reflection) pairs and
every geometry with positive total width and height, `set_transformation_matrix`
returns exactly the matrix of the row of the table of section 4.2 for that
pair, where `x, y, w, h` are the quotients as the code has them (taken in
`double` and stored in `float`s) and the sums `x + w` and `y + h` of the table
are `float` sums: the translation terms are elements (0,2) and (1,2), the
bottom row is `[0,0,1]`, a main row has `diag1, diag2` on the diagonal and
zeros off it, an off row has `diag1` at (0,1), `diag2` at (1,0) and zeros on
the diagonal. Where the four stored quotients and the two sums are exact, this
is the row of the table in exact arithmetic. -/
theorem set_transformation_matrix_is_table_row (dpy : Display) (m : Matrix)
    (offset_x offset_y screen_width screen_height : Int)
    (rot : RotationState) (refl : ReflectionState)
    (_hw : 0 < dpy.server.display_width) (_hh : 0 < dpy.server.display_height) :
    let x : ℚ := normalised offset_x dpy.server.display_width
    let y : ℚ := normalised offset_y dpy.server.display_height
    let w : ℚ := normalised screen_width dpy.server.display_width
    let h : ℚ := normalised screen_height dpy.server.display_height
    let row := floatTable x y w h rot refl
    let r := set_transformation_matrix dpy m offset_x offset_y screen_width screen_height
      (rotationMask rot refl)
    r = row.matrix ∧
    r.entry 0 2 = row.x02 ∧ r.entry 1 2 = row.x12 ∧
    r.entry 2 0 = 0 ∧ r.entry 2 1 = 0 ∧ r.entry 2 2 = 1 ∧
    (row.mainDiagonal = true →
      r.entry 0 0 = row.diag1 ∧ r.entry 1 1 = row.diag2 ∧ r.entry 0 1 = 0 ∧ r.entry 1 0 = 0) ∧
    (row.mainDiagonal = false →
      r.entry 0 1 = row.diag1 ∧ r.entry 1 0 = row.diag2 ∧ r.entry 0 0 = 0 ∧ r.entry 1 1 = 0) ∧
    (x = (offset_x : ℚ) / dpy.server.display_width →
      y = (offset_y : ℚ) / dpy.server.display_height →
      w = (screen_width : ℚ) / dpy.server.display_width →
      h = (screen_height : ℚ) / dpy.server.display_height →
      float_add x w = x + w → float_add y h = y + h →
      r = (specTable ((offset_x : ℚ) / dpy.server.display_width)
        ((offset_y : ℚ) / dpy.server.display_height)
        ((screen_width : ℚ) / dpy.server.display_width)
        ((screen_height : ℚ) / dpy.server.display_height) rot refl).matrix) := by
  intro x y w h row r
  have hr : r = row.matrix :=
    set_transformation_matrix_table dpy m offset_x offset_y screen_width screen_height rot refl
  refine ⟨hr, ?_⟩
  have hexact : x = (offset_x : ℚ) / dpy.server.display_width →
      y = (offset_y : ℚ) / dpy.server.display_height →
      w = (screen_width : ℚ) / dpy.server.display_width →
      h = (screen_height : ℚ) / dpy.server.display_height →
      float_add x w = x + w → float_add y h = y + h →
      r = (specTable ((offset_x : ℚ) / dpy.server.display_width)
        ((offset_y : ℚ) / dpy.server.display_height)
        ((screen_width : ℚ) / dpy.server.display_width)
        ((screen_height : ℚ) / dpy.server.display_height) rot refl).matrix := by
    intro hx hy hw' hh' hxw hyh
    rw [hr, specTable_eq_sumTable, ← hx, ← hy, ← hw', ← hh', ← hxw, ← hyh]
    rfl
  rw [hr]
  refine ⟨?_, ?_, ?_, ?_, ?_, ?_, ?_, hr ▸ hexact⟩ <;>
  cases rot <;> cases refl <;>
    simp [row, floatTable, sumTable, TableRow.matrix, Matrix.ofRows_entry_0_0,
      Matrix.ofRows_entry_0_1, Matrix.ofRows_entry_0_2, Matrix.ofRows_entry_1_0,
      Matrix.ofRows_entry_1_1, Matrix.ofRows_entry_1_2, Matrix.ofRows_entry_2_0,
      Matrix.ofRows_entry_2_1, Matrix.ofRows_entry_2_2]

/-- C1, the instance of the end-to-end scenario: rotation 90 degrees, no
reflection, offset (0,0), output 1920x1080 equal to the total size. -/
theorem set_transformation_matrix_is_table_row_witness :
    0 < panel.server.display_width ∧ 0 < panel.server.display_height ∧
    set_transformation_matrix panel zeroMatrix 0 0 1920 1080 RR_Rotate_90
      = Matrix.ofRows 0 (-1) 1 1 0 0 0 0 1 := by
  have h := (set_transformation_matrix_is_table_row panel zeroMatrix 0 0 1920 1080
    RotationState.rotate90 ReflectionState.none (by decide) (by decide)).1
  refine ⟨by decide, by decide, ?_⟩
  have hm : rotationMask RotationState.rotate90 ReflectionState.none = RR_Rotate_90 := by decide
  have e1 : normalised 1920 panel.server.display_width = 1 := normalised_self 1920 (by decide)
  have e2 : normalised 1080 panel.server.display_height = 1 := normalised_self 1080 (by decide)
  have e3 : float_add 0 1 = 1 := by
    rw [float_add, zero_add]
    exact float_round_one.2
  rw [hm] at h
  rw [h]
  simp only [normalised_zero, e1, e2, floatTable, sumTable, TableRow.matrix, e3]
  rfl

/-- C1 as claimed fails: on a 3x3 screen with an output of 2x3 at (1,0) shown
reflected along X, element (0,0) is `-w` with `w` the `float` nearest to 2/3,
which is 11184811/16777216, where the row in exact arithmetic has -2/3. -/
theorem set_transformation_matrix_rounds :
    0 < tinyScreen.server.display_width ∧ 0 < tinyScreen.server.display_height ∧
    rotationMask RotationState.none ReflectionState.reflectX = RR_Reflect_X ||| RR_Rotate_0 ∧
    (set_transformation_matrix tinyScreen zeroMatrix 1 0 2 3
      (RR_Reflect_X ||| RR_Rotate_0)).entry 0 0 = -(11184811 / 16777216) ∧
    (specTable (1 / 3) (0 / 3) (2 / 3) (3 / 3) RotationState.none
      ReflectionState.reflectX).matrix.entry 0 0 = -(2 / 3) ∧
    set_transformation_matrix tinyScreen zeroMatrix 1 0 2 3 (RR_Reflect_X ||| RR_Rotate_0)
      ≠ (specTable (1 / 3) (0 / 3) (2 / 3) (3 / 3) RotationState.none
          ReflectionState.reflectX).matrix := by
  have h1 : (set_transformation_matrix tinyScreen zeroMatrix 1 0 2 3
      (RR_Reflect_X ||| RR_Rotate_0)).entry 0 0 = -(11184811 / 16777216) := by decide!
  have h2 : (specTable (1 / 3) (0 / 3) (2 / 3) (3 / 3) RotationState.none
      ReflectionState.reflectX).matrix.entry 0 0 = -(2 / 3) := by
    simp [specTable, TableRow.matrix, Matrix.ofRows_entry_0_0]
  refine ⟨by decide, by decide, by decide, h1, h2, ?_⟩
  intro heq
  rw [heq, h2] at h1
  norm_num at h1

/-- C3. With offset (0,0), output size equal to a positive total size,
rotation 0 degrees and no reflection, the result is the identity matrix. -/
theorem set_transformation_matrix_identity (dpy : Display) (m : Matrix)
    (hw : 0 < dpy.server.display_width) (hh : 0 < dpy.server.display_height) :
    set_transformation_matrix dpy m 0 0 dpy.server.display_width dpy.server.display_height
        RR_Rotate_0
      = Matrix.ofRows 1 0 0 0 1 0 0 0 1 := by
  have h := set_transformation_matrix_table dpy m 0 0 dpy.server.display_width
    dpy.server.display_height RotationState.none ReflectionState.none
  have hm : rotationMask RotationState.none ReflectionState.none = RR_Rotate_0 := by decide
  rw [hm] at h
  rw [h, normalised_zero, normalised_zero, normalised_self _ hw, normalised_self _ hh]
  simp [floatTable, sumTable, TableRow.matrix]

/-- C3 on the 1920x1080 panel. -/
theorem set_transformation_matrix_identity_witness :
    0 < panel.server.display_width ∧ 0 < panel.server.display_height ∧
    set_transformation_matrix panel zeroMatrix 0 0 1920 1080 RR_Rotate_0
      = Matrix.ofRows 1 0 0 0 1 0 0 0 1 :=
  ⟨by decide, by decide,
    set_transformation_matrix_identity panel zeroMatrix (by decide) (by decide)⟩

/-! ## The eight classes -/

/-- Every row of the table is the matrix of its class. -/
theorem sumTable_matrix_eq_classMatrix (x y w h xw yh : ℚ) (rot : RotationState)
    (refl : ReflectionState) :
    (sumTable x y w h xw yh rot refl).matrix
      = classMatrix x y w h xw yh (tableClass rot refl) := by
  cases rot <;> cases refl <;> simp [sumTable, tableClass, classMatrix]

/-- With non-zero scales, different classes have different matrices. -/
theorem classMatrix_injective (x y w h xw yh : ℚ) (hw : w ≠ 0) (hh : h ≠ 0) :
    Function.Injective (classMatrix x y w h xw yh) := by
  intro c₁ c₂ hc
  have e0 := congrArg (fun M : Matrix => M.entry 0 0) hc
  have e1 := congrArg (fun M : Matrix => M.entry 0 1) hc
  have e3 := congrArg (fun M : Matrix => M.entry 1 0) hc
  have e4 := congrArg (fun M : Matrix => M.entry 1 1) hc
  clear hc
  obtain ⟨a₁, b₁, d₁⟩ := c₁
  obtain ⟨a₂, b₂, d₂⟩ := c₂
  cases a₁ <;> cases a₂ <;> cases b₁ <;> cases b₂ <;> cases d₁ <;> cases d₂ <;>
    first
    | rfl
    | (exfalso
       simp only [classMatrix, TableRow.matrix, Matrix.ofRows_entry_0_0, Matrix.ofRows_entry_0_1,
         Matrix.ofRows_entry_1_0, Matrix.ofRows_entry_1_1, if_true, if_false,
         Bool.false_eq_true] at e0 e1 e3 e4
       first
       | exact hw (by linarith)
       | exact hh (by linarith))

/-- There are eight classes, and each is the class of two pairs. -/
theorem tableClass_count :
    (Finset.univ.image
        (fun p : RotationState × ReflectionState => tableClass p.1 p.2)).card = 8 ∧
    ∀ q : RotationState × ReflectionState,
      (Finset.univ.filter
        (fun p : RotationState × ReflectionState =>
          tableClass p.1 p.2 = tableClass q.1 q.2)).card = 2 := by
  decide

/-- The result of `set_transformation_matrix` is the matrix of the class of the
pair. -/
theorem set_transformation_matrix_class (dpy : Display) (m : Matrix)
    (offset_x offset_y screen_width screen_height : Int)
    (rot : RotationState) (refl : ReflectionState) :
    set_transformation_matrix dpy m offset_x offset_y screen_width screen_height
        (rotationMask rot refl)
      = classMatrix (normalised offset_x dpy.server.display_width)
          (normalised offset_y dpy.server.display_height)
          (normalised screen_width dpy.server.display_width)
          (normalised screen_height dpy.server.display_height)
          (float_add (normalised offset_x dpy.server.display_width)
            (normalised screen_width dpy.server.display_width))
          (float_add (normalised offset_y dpy.server.display_height)
            (normalised screen_height dpy.server.display_height))
          (tableClass rot refl) := by
  rw [set_transformation_matrix_table, floatTable, sumTable_matrix_eq_classMatrix]

/-- C2. For a geometry with positive total and output sizes, the sixteen
(rotation, reflection) pairs yield exactly eight different matrices, and each
of these is the result of exactly two pairs. -/
theorem set_transformation_matrix_eight_classes (dpy : Display) (m : Matrix)
    (offset_x offset_y screen_width screen_height : Int)
    (htw : 0 < dpy.server.display_width) (hth : 0 < dpy.server.display_height)
    (hsw : 0 < screen_width) (hsh : 0 < screen_height) :
    let f : RotationState × ReflectionState → Matrix := fun p =>
      set_transformation_matrix dpy m offset_x offset_y screen_width screen_height
        (rotationMask p.1 p.2)
    (Finset.univ.image f).card = 8 ∧
    ∀ M ∈ Finset.univ.image f, (Finset.univ.filter (fun p => f p = M)).card = 2 := by
  intro f
  have hw : normalised screen_width dpy.server.display_width ≠ 0 :=
    ne_of_gt (normalised_pos _ _ hsw htw)
  have hh : normalised screen_height dpy.server.display_height ≠ 0 :=
    ne_of_gt (normalised_pos _ _ hsh hth)
  have hinj := classMatrix_injective (normalised offset_x dpy.server.display_width)
    (normalised offset_y dpy.server.display_height) _ _
    (float_add (normalised offset_x dpy.server.display_width)
      (normalised screen_width dpy.server.display_width))
    (float_add (normalised offset_y dpy.server.display_height)
      (normalised screen_height dpy.server.display_height)) hw hh
  have hf : ∀ p : RotationState × ReflectionState, f p = classMatrix
      (normalised offset_x dpy.server.display_width)
      (normalised offset_y dpy.server.display_height)
      (normalised screen_width dpy.server.display_width)
      (normalised screen_height dpy.server.display_height)
      (float_add (normalised offset_x dpy.server.display_width)
        (normalised screen_width dpy.server.display_width))
      (float_add (normalised offset_y dpy.server.display_height)
        (normalised screen_height dpy.server.display_height))
      (tableClass p.1 p.2) := by
    intro p
    exact set_transformation_matrix_class dpy m offset_x offset_y screen_width screen_height
      p.1 p.2
  have hiff : ∀ p q, f p = f q ↔ tableClass p.1 p.2 = tableClass q.1 q.2 := by
    intro p q
    rw [hf p, hf q]
    exact hinj.eq_iff
  constructor
  · have himg : Finset.univ.image f
        = (Finset.univ.image
            (fun p : RotationState × ReflectionState => tableClass p.1 p.2)).image
          (classMatrix (normalised offset_x dpy.server.display_width)
            (normalised offset_y dpy.server.display_height)
            (normalised screen_width dpy.server.display_width)
            (normalised screen_height dpy.server.display_height)
            (float_add (normalised offset_x dpy.server.display_width)
              (normalised screen_width dpy.server.display_width))
            (float_add (normalised offset_y dpy.server.display_height)
              (normalised screen_height dpy.server.display_height))) := by
      rw [Finset.image_image]
      apply Finset.image_congr
      intro p _
      exact hf p
    rw [himg, Finset.card_image_of_injective _ hinj]
    exact tableClass_count.1
  · intro M hM
    obtain ⟨q, _, rfl⟩ := Finset.mem_image.mp hM
    have hfil : Finset.univ.filter (fun p => f p = f q)
        = Finset.univ.filter (fun p : RotationState × ReflectionState =>
            tableClass p.1 p.2 = tableClass q.1 q.2) := by
      apply Finset.filter_congr
      intro p _
      exact hiff p q
    rw [hfil]
    exact tableClass_count.2 q

/-- C2 on the 1920x1080 panel. -/
theorem set_transformation_matrix_eight_classes_witness :
    (Finset.univ.image (fun p : RotationState × ReflectionState =>
      set_transformation_matrix panel zeroMatrix 0 0 1920 1080
        (rotationMask p.1 p.2))).card = 8 :=
  (set_transformation_matrix_eight_classes panel zeroMatrix 0 0 1920 1080
    (by decide) (by decide) (by decide) (by decide)).1

/-! ## Writing the matrix to a device: theorems -/

/-- The storage order of a matrix is row-major. -/
theorem Matrix.toList_eq_rows (m : Matrix) :
    m.toList = [m.entry 0 0, m.entry 0 1, m.entry 0 2, m.entry 1 0, m.entry 1 1, m.entry 1 2,
      m.entry 2 0, m.entry 2 1, m.entry 2 2] := by
  rfl

/-- The storage of a matrix has nine values. -/
theorem Matrix.length_toList (m : Matrix) : m.toList.length = 9 := by
  simp [Matrix.toList]

/-- C5. `apply_matrix` returns 1 and leaves the connection as it was, nothing
sent, when the FLOAT atom or the matrix atom is unresolved, or the property
read fails, or reports a type other than FLOAT, a format other than 32, a
count other than 9, or trailing bytes. It returns 0 exactly when none of
these holds, and then it has sent exactly one request: a replace-mode
`XIChangeProperty` of 9 items of format 32 and type FLOAT on the matrix
property of the device, carrying the nine values of the matrix in row-major
order. -/
theorem apply_matrix_spec (dpy : Display) (deviceid : Int) (m : Matrix) :
    let prop_float := dpy.server.intern_atom "FLOAT"
    let prop_matrix := dpy.server.intern_atom "Coordinate Transformation Matrix"
    let reply := dpy.server.get_property deviceid prop_matrix prop_float
    let bad := prop_float = 0 ∨ prop_matrix = 0 ∨ reply.rc ≠ Success ∨
      reply.type_return ≠ prop_float ∨ reply.format_return ≠ 32 ∨ reply.nitems ≠ 9 ∨
      reply.bytes_after ≠ 0
    (bad → apply_matrix dpy deviceid m = (1, dpy)) ∧
    ((apply_matrix dpy deviceid m).1 = 0 ↔ ¬ bad) ∧
    (¬ bad → apply_matrix dpy deviceid m
        = (0, dpy.send (Request.XIChangeProperty deviceid prop_matrix prop_float 32
            PropModeReplace
            [m.entry 0 0, m.entry 0 1, m.entry 0 2, m.entry 1 0, m.entry 1 1, m.entry 1 2,
              m.entry 2 0, m.entry 2 1, m.entry 2 2] 9)) ∧
      (apply_matrix dpy deviceid m).2.sent
        = dpy.sent ++ [Request.XIChangeProperty deviceid prop_matrix prop_float 32
            PropModeReplace
            [m.entry 0 0, m.entry 0 1, m.entry 0 2, m.entry 1 0, m.entry 1 1, m.entry 1 2,
              m.entry 2 0, m.entry 2 1, m.entry 2 2] 9]) := by
  intro prop_float prop_matrix reply bad
  have hbad : bad → apply_matrix dpy deviceid m = (1, dpy) := by
    intro hb
    unfold apply_matrix
    by_cases h1 : dpy.server.intern_atom "FLOAT" = 0
    · simp [h1]
    by_cases h2 : dpy.server.intern_atom "Coordinate Transformation Matrix" = 0
    · simp [h1, h2]
    have hb' : reply.rc ≠ Success ∨ prop_float ≠ reply.type_return ∨ reply.format_return ≠ 32 ∨
        reply.nitems ≠ 9 ∨ reply.bytes_after ≠ 0 := by
      rcases hb with h | h | h | h | h | h | h
      · exact absurd h h1
      · exact absurd h h2
      · exact Or.inl h
      · exact Or.inr (Or.inl (Ne.symm h))
      · exact Or.inr (Or.inr (Or.inl h))
      · exact Or.inr (Or.inr (Or.inr (Or.inl h)))
      · exact Or.inr (Or.inr (Or.inr (Or.inr h)))
    simp only [h1, h2, if_false]
    exact if_pos hb'
  have hgood : ¬ bad → apply_matrix dpy deviceid m
      = (0, dpy.send (Request.XIChangeProperty deviceid prop_matrix prop_float 32
          PropModeReplace m.toList 9)) := by
    intro hb
    have h1 : ¬ dpy.server.intern_atom "FLOAT" = 0 := fun h => hb (Or.inl h)
    have h2 : ¬ dpy.server.intern_atom "Coordinate Transformation Matrix" = 0 :=
      fun h => hb (Or.inr (Or.inl h))
    have h3 : reply.rc = Success := by
      by_contra h; exact hb (Or.inr (Or.inr (Or.inl h)))
    have h4 : reply.type_return = prop_float := by
      by_contra h; exact hb (Or.inr (Or.inr (Or.inr (Or.inl h))))
    have h5 : reply.format_return = 32 := by
      by_contra h; exact hb (Or.inr (Or.inr (Or.inr (Or.inr (Or.inl h)))))
    have h6 : reply.nitems = 9 := by
      by_contra h; exact hb (Or.inr (Or.inr (Or.inr (Or.inr (Or.inr (Or.inl h))))))
    have h7 : reply.bytes_after = 0 := by
      by_contra h; exact hb (Or.inr (Or.inr (Or.inr (Or.inr (Or.inr (Or.inr h))))))
    have hno : ¬ (reply.rc ≠ Success ∨ prop_float ≠ reply.type_return ∨
        reply.format_return ≠ 32 ∨ reply.nitems ≠ 9 ∨ reply.bytes_after ≠ 0) := by
      simp [h3, h4, h5, h6, h7]
    unfold apply_matrix
    simp only [h1, h2, if_false]
    rw [if_neg hno]
    show (0, dpy.send (Request.XIChangeProperty deviceid prop_matrix prop_float
      reply.format_return PropModeReplace
      ((m.toList ++ reply.data.drop 9).take reply.nitems) reply.nitems)) = _
    rw [h5, h6, List.take_left' (Matrix.length_toList m)]
  refine ⟨hbad, ?_, ?_⟩
  · constructor
    · intro h0 hb
      rw [hbad hb] at h0
      exact absurd h0 one_ne_zero
    · intro hb
      rw [hgood hb]
  · intro hb
    rw [hgood hb, Matrix.toList_eq_rows]
    exact ⟨rfl, rfl⟩

/-- C5 on the panel: the touchpad (device 11) has a well-formed property and
receives the matrix, one request sent. -/
theorem apply_matrix_spec_witness :
    apply_matrix panel 11 (Matrix.ofRows 0 (-1) 1 1 0 0 0 0 1)
      = (0, panel.send (Request.XIChangeProperty 11 158 291 32 PropModeReplace
          [0, -1, 1, 1, 0, 0, 0, 0, 1] 9)) :=
  ((apply_matrix_spec panel 11 (Matrix.ofRows 0 (-1) 1 1 0 0 0 0 1)).2.2
    (by decide)).1

/-! ## Locating the output: theorems -/

/-- The loop returns the first element that has a crtc and is connected. -/
theorem find_output_xrandr_loop_some (outputs : List XRROutputInfo) (o : XRROutputInfo) :
    find_output_xrandr_loop outputs = some o ↔
      ∃ before after, outputs = before ++ o :: after ∧
        (o.crtc ≠ 0 ∧ o.connection = RR_Connected) ∧
        ∀ p ∈ before, ¬ (p.crtc ≠ 0 ∧ p.connection = RR_Connected) := by
  induction outputs with
  | nil => simp [find_output_xrandr_loop]
  | cons a rest ih =>
    unfold find_output_xrandr_loop
    by_cases ha : a.crtc ≠ 0 ∧ a.connection = RR_Connected
    · rw [if_pos ha]
      constructor
      · intro h
        have hao : a = o := Option.some.inj h
        subst hao
        exact ⟨[], rest, rfl, ha, by simp⟩
      · rintro ⟨before, after, heq, _, hbefore⟩
        cases before with
        | nil =>
          have : a = o := (List.cons.inj heq).1
          rw [this]
        | cons b before =>
          have hab : a = b := (List.cons.inj heq).1
          exact absurd (hab ▸ ha) (hbefore b (List.mem_cons_self _ _))
    · rw [if_neg ha, ih]
      constructor
      · rintro ⟨before, after, heq, ho, hbefore⟩
        refine ⟨a :: before, after, by rw [heq]; rfl, ho, ?_⟩
        intro p hp
        rcases List.mem_cons.mp hp with rfl | hp
        · exact ha
        · exact hbefore p hp
      · rintro ⟨before, after, heq, ho, hbefore⟩
        cases before with
        | nil =>
          have hao : a = o := (List.cons.inj heq).1
          exact absurd (hao ▸ ho) ha
        | cons b before =>
          refine ⟨before, after, (List.cons.inj heq).2, ho, ?_⟩
          intro p hp
          exact hbefore p (List.mem_cons_of_mem _ hp)

/-- The loop returns nothing exactly when no element qualifies. -/
theorem find_output_xrandr_loop_none (outputs : List XRROutputInfo) :
    find_output_xrandr_loop outputs = none ↔
      ∀ p ∈ outputs, ¬ (p.crtc ≠ 0 ∧ p.connection = RR_Connected) := by
  induction outputs with
  | nil => simp [find_output_xrandr_loop]
  | cons a rest ih =>
    unfold find_output_xrandr_loop
    by_cases ha : a.crtc ≠ 0 ∧ a.connection = RR_Connected
    · rw [if_pos ha]
      constructor
      · intro h
        exact absurd h (by simp)
      · intro h
        exact absurd ha (h a (List.mem_cons_self _ _))
    · rw [if_neg ha, ih]
      constructor
      · intro h p hp
        rcases List.mem_cons.mp hp with rfl | hp
        · exact ha
        · exact h p hp
      · intro h p hp
        exact h p (List.mem_cons_of_mem _ hp)

/-- C8. `find_output_xrandr` returns an output exactly when it is the first one,
in enumeration order, that is connected and has a crtc (no output before it
qualifies), and returns `NULL` exactly when no output qualifies. -/
theorem find_output_xrandr_first_match (dpy : Display) :
    (∀ o, find_output_xrandr dpy = some o ↔
      ∃ before after, dpy.server.outputs = before ++ o :: after ∧
        (o.crtc ≠ 0 ∧ o.connection = RR_Connected) ∧
        ∀ p ∈ before, ¬ (p.crtc ≠ 0 ∧ p.connection = RR_Connected)) ∧
    (find_output_xrandr dpy = none ↔
      ∀ p ∈ dpy.server.outputs, ¬ (p.crtc ≠ 0 ∧ p.connection = RR_Connected)) :=
  ⟨fun o => find_output_xrandr_loop_some dpy.server.outputs o,
    find_output_xrandr_loop_none dpy.server.outputs⟩

/-! ## The device phase: theorems -/

/-- Whatever `apply_matrix` sends is a device property write. -/
theorem apply_matrix_sent (dpy : Display) (deviceid : Int) (m : Matrix) :
    ∃ writes, (apply_matrix dpy deviceid m).2.sent = dpy.sent ++ writes ∧
      ∀ r ∈ writes, r.isPropertyWrite = true := by
  unfold apply_matrix
  by_cases h1 : dpy.server.intern_atom "FLOAT" = 0
  · exact ⟨[], by simp [h1]⟩
  by_cases h2 : dpy.server.intern_atom "Coordinate Transformation Matrix" = 0
  · exact ⟨[], by simp [h1, h2]⟩
  simp only [h1, h2, if_false]
  split
  · exact ⟨[], by simp⟩
  · exact ⟨[_], rfl, by simp [Request.isPropertyWrite]⟩

/-- Whatever `map_output_xrandr` sends is a device property write. -/
theorem map_output_xrandr_sent (dpy : Display) (deviceid : Int) :
    ∃ writes, (map_output_xrandr dpy deviceid).2.sent = dpy.sent ++ writes ∧
      ∀ r ∈ writes, r.isPropertyWrite = true := by
  unfold map_output_xrandr
  cases find_output_xrandr dpy with
  | none => exact ⟨[], by simp⟩
  | some o => exact apply_matrix_sent dpy deviceid _

/-- Whatever the device loop sends is a device property write. -/
theorem properties_changed_devices_sent (devices : List XIDeviceInfo) (dpy : Display) :
    ∃ writes, (properties_changed_devices dpy devices).sent = dpy.sent ++ writes ∧
      ∀ r ∈ writes, r.isPropertyWrite = true := by
  induction devices generalizing dpy with
  | nil => exact ⟨[], by simp [properties_changed_devices]⟩
  | cons info rest ih =>
    unfold properties_changed_devices
    by_cases hm : device_matches info = true
    · rw [if_pos hm]
      obtain ⟨w₁, h₁, hw₁⟩ := map_output_xrandr_sent dpy info.deviceid
      obtain ⟨w₂, h₂, hw₂⟩ := ih (map_output_xrandr dpy info.deviceid).2
      refine ⟨w₁ ++ w₂, by rw [h₂, h₁, List.append_assoc], ?_⟩
      intro r hr
      rcases List.mem_append.mp hr with h | h
      · exact hw₁ r h
      · exact hw₂ r h
    · rw [if_neg hm]
      exact ih dpy

/-- A run of the handler on a recognised label, with a display that opens and
a screen configuration that can be read: one `XRRSetScreenConfig` with the
current size, the rotation of the label and `CurrentTime`, then the loop over
the devices the server lists after that request. -/
theorem properties_changed_recognized (dpy : Display) (cfg : XRRScreenConfiguration)
    (label : String) (new_rotation : Nat)
    (hcfg : dpy.server.screen_info = some cfg)
    (hlabel : new_rotation_of_label label = some new_rotation) :
    properties_changed (some dpy) true label
      = some (properties_changed_devices
          (dpy.send (Request.XRRSetScreenConfig cfg.current_size new_rotation CurrentTime))
          (dpy.send (Request.XRRSetScreenConfig cfg.current_size new_rotation
            CurrentTime)).server.devices) := by
  simp [properties_changed, hcfg, hlabel]

/-- The device loop is the successive application of `map_output_xrandr`, its
return value ignored, to the identifiers of the listed devices that
`device_matches` accepts, in the order of the list. -/
theorem properties_changed_devices_eq_foldl (devices : List XIDeviceInfo) (dpy : Display) :
    properties_changed_devices dpy devices
      = ((devices.filter (fun info => device_matches info)).map (fun info => info.deviceid)).foldl
          (fun d deviceid => (map_output_xrandr d deviceid).2) dpy := by
  induction devices generalizing dpy with
  | nil => rfl
  | cons info rest ih =>
    unfold properties_changed_devices
    by_cases hm : device_matches info = true
    · rw [if_pos hm, ih]
      simp [List.filter_cons, hm]
    · rw [if_neg hm, ih]
      simp [List.filter_cons, hm]

/-- A device matches exactly when its use is master pointer or slave pointer. -/
theorem device_matches_iff (info : XIDeviceInfo) :
    device_matches info = true ↔ (info.use = XIMasterPointer ∨ info.use = XISlavePointer) := by
  simp [device_matches, is_pointer]

/-- C7. A device is selected exactly when its use is master pointer or slave
pointer, and a keyboard never is. The device loop is the successive
application of `map_output_xrandr` to the identifiers of the selected devices,
each once, in enumeration order, with the return value of every application
dropped: no outcome of one application keeps the next from being made. A
handler run on a recognised label is one set-rotation request followed by
that loop over the devices the server lists. -/
theorem properties_changed_devices_attempts (dpy : Display) (devices : List XIDeviceInfo) :
    (∀ info : XIDeviceInfo,
      device_matches info = true ↔ (info.use = XIMasterPointer ∨ info.use = XISlavePointer)) ∧
    (∀ info : XIDeviceInfo, is_keyboard info.use = true → device_matches info = false) ∧
    properties_changed_devices dpy devices
      = ((devices.filter
            (fun info => info.use = XIMasterPointer ∨ info.use = XISlavePointer)).map
          (fun info => info.deviceid)).foldl
          (fun d deviceid => (map_output_xrandr d deviceid).2) dpy ∧
    (∀ (cfg : XRRScreenConfiguration) (label : String) (new_rotation : Nat),
      dpy.server.screen_info = some cfg → new_rotation_of_label label = some new_rotation →
      properties_changed (some dpy) true label
        = some ((((dpy.send (Request.XRRSetScreenConfig cfg.current_size new_rotation
              CurrentTime)).server.devices.filter
              (fun info => info.use = XIMasterPointer ∨ info.use = XISlavePointer)).map
            (fun info => info.deviceid)).foldl
            (fun d deviceid => (map_output_xrandr d deviceid).2)
            (dpy.send (Request.XRRSetScreenConfig cfg.current_size new_rotation
              CurrentTime)))) := by
  have hfilter : ∀ l : List XIDeviceInfo,
      l.filter (fun info => device_matches info)
        = l.filter (fun info => info.use = XIMasterPointer ∨ info.use = XISlavePointer) := by
    intro l
    apply List.filter_congr
    intro info _
    simp [device_matches, is_pointer]
  refine ⟨device_matches_iff, ?_, ?_, ?_⟩
  · intro info hk
    simp only [is_keyboard, XIMasterKeyboard, XISlaveKeyboard, Bool.or_eq_true,
      decide_eq_true_eq] at hk
    rcases hk with hk | hk <;>
      simp [device_matches, is_pointer, hk, XIMasterPointer, XISlavePointer]
  · rw [properties_changed_devices_eq_foldl, hfilter]
  · intro cfg label new_rotation hcfg hlabel
    rw [properties_changed_recognized dpy cfg label new_rotation hcfg hlabel,
      properties_changed_devices_eq_foldl, hfilter]

/-- C7 on the panel: the core pointer, the touchscreen and the touchpad are
attempted in this order, the keyboards and the floating device are not, and
the touchpad receives its matrix although the touchscreen before it failed. -/
theorem properties_changed_devices_attempts_witness :
    properties_changed_devices panel panel.server.devices
        = [2, 13, 11].foldl (fun d deviceid => (map_output_xrandr d deviceid).2) panel ∧
    (map_output_xrandr panel 13).1 = 1 ∧
    (properties_changed_devices panel panel.server.devices).sent
      = [Request.XIChangeProperty 2 158 291 32 PropModeReplace [1, 0, 0, 0, 1, 0, 0, 0, 1] 9,
         Request.XIChangeProperty 11 158 291 32 PropModeReplace [1, 0, 0, 0, 1, 0, 0, 0, 1] 9] := by
  have h := (properties_changed_devices_attempts panel panel.server.devices).2.2.1
  refine ⟨h.trans rfl, by decide, ?_⟩
  rw [h]
  decide!

/-- C8 on the panel: the first listed output is disconnected and without crtc,
the second is connected with crtc 63 and is the one returned. -/
theorem find_output_xrandr_first_match_witness :
    find_output_xrandr panel = some { crtc := 63, connection := RR_Connected } :=
  ((find_output_xrandr_first_match panel).1 { crtc := 63, connection := RR_Connected }).mpr
    ⟨[{ crtc := 0, connection := 1 }], [], rfl, by decide, by decide⟩

/-- Without a qualifying output `map_output_xrandr` fails and sends nothing. -/
theorem map_output_xrandr_none (dpy : Display) (deviceid : Int)
    (hnone : find_output_xrandr dpy = none) :
    map_output_xrandr dpy deviceid = (EXIT_FAILURE, dpy) := by
  simp [map_output_xrandr, hnone]

/-- Without a qualifying output the device loop leaves the connection as it was. -/
theorem properties_changed_devices_none (devices : List XIDeviceInfo) (dpy : Display)
    (hnone : find_output_xrandr dpy = none) :
    properties_changed_devices dpy devices = dpy := by
  induction devices with
  | nil => rfl
  | cons info rest ih =>
    unfold properties_changed_devices
    rw [map_output_xrandr_none dpy info.deviceid hnone]
    simp [ih]

/-- C9. When no output is both connected and assigned a crtc,
`find_output_xrandr` returns `NULL`, and for every device `map_output_xrandr`
returns `EXIT_FAILURE`, which is not zero, and leaves the connection as it
was, nothing sent; the loop over any list of devices sends nothing; and a
handler run whose set-rotation request leads to this state ends with that
request as the last one sent, no device property written. -/
theorem map_output_xrandr_no_output (dpy : Display)
    (hno : ∀ p ∈ dpy.server.outputs, ¬ (p.crtc ≠ 0 ∧ p.connection = RR_Connected)) :
    find_output_xrandr dpy = none ∧
    (∀ deviceid : Int, map_output_xrandr dpy deviceid = (EXIT_FAILURE, dpy)) ∧
    EXIT_FAILURE ≠ 0 ∧
    (∀ devices : List XIDeviceInfo, properties_changed_devices dpy devices = dpy) ∧
    (∀ (before : Display) (cfg : XRRScreenConfiguration) (label : String) (new_rotation : Nat),
      before.server.screen_info = some cfg → new_rotation_of_label label = some new_rotation →
      before.send (Request.XRRSetScreenConfig cfg.current_size new_rotation CurrentTime) = dpy →
      properties_changed (some before) true label = some dpy ∧
      dpy.sent = before.sent ++
        [Request.XRRSetScreenConfig cfg.current_size new_rotation CurrentTime]) := by
  have hnone : find_output_xrandr dpy = none :=
    (find_output_xrandr_loop_none dpy.server.outputs).mpr hno
  refine ⟨hnone, fun deviceid => map_output_xrandr_none dpy deviceid hnone, by decide,
    fun devices => properties_changed_devices_none devices dpy hnone, ?_⟩
  intro before cfg label new_rotation hcfg hlabel hsend
  rw [properties_changed_recognized before cfg label new_rotation hcfg hlabel, hsend,
    properties_changed_devices_none _ dpy hnone]
  refine ⟨rfl, ?_⟩
  rw [← hsend]
  rfl

/-- C9 on a server without a connected output that has a crtc: the attempt for
the touchpad fails and a whole handler run sends the set-rotation request
only. -/
theorem map_output_xrandr_no_output_witness :
    (map_output_xrandr
        (unplugged.send (Request.XRRSetScreenConfig 0 RR_Rotate_90 CurrentTime)) 11).1
      = EXIT_FAILURE ∧
    requests (properties_changed (some unplugged) true "left-up")
      = [Request.XRRSetScreenConfig 0 RR_Rotate_90 CurrentTime] := by
  have h := map_output_xrandr_no_output
    (unplugged.send (Request.XRRSetScreenConfig 0 RR_Rotate_90 CurrentTime)) (by decide)
  refine ⟨by rw [h.2.1 11], ?_⟩
  have h' := h.2.2.2.2 unplugged ⟨0, RR_Rotate_0⟩ "left-up" RR_Rotate_90 rfl (by decide) rfl
  rw [h'.1]
  exact h'.2

/-! ## The orientation handler: theorems -/

/-- The requests of a handler run on a recognised label: what had been sent
before, one `XRRSetScreenConfig` with the current size, the rotation of the
label and `CurrentTime`, then device property writes only. -/
theorem properties_changed_sent (dpy : Display) (cfg : XRRScreenConfiguration)
    (label : String) (new_rotation : Nat)
    (hcfg : dpy.server.screen_info = some cfg)
    (hlabel : new_rotation_of_label label = some new_rotation) :
    ∃ after writes, properties_changed (some dpy) true label = some after ∧
      after.sent = dpy.sent ++
        Request.XRRSetScreenConfig cfg.current_size new_rotation CurrentTime :: writes ∧
      ∀ r ∈ writes, r.isPropertyWrite = true := by
  obtain ⟨writes, hsent, hwrites⟩ := properties_changed_devices_sent
    (dpy.send (Request.XRRSetScreenConfig cfg.current_size new_rotation
      CurrentTime)).server.devices
    (dpy.send (Request.XRRSetScreenConfig cfg.current_size new_rotation CurrentTime))
  refine ⟨_, writes, properties_changed_recognized dpy cfg label new_rotation hcfg hlabel,
    ?_, hwrites⟩
  rw [hsent]
  simp [Display.send]

/-- The rotation of a recognised label is one of the four rotation bits. -/
theorem new_rotation_of_label_some (label : String) (new_rotation : Nat)
    (hlabel : new_rotation_of_label label = some new_rotation) :
    (label = "normal" ∧ new_rotation = RR_Rotate_0) ∨
    (label = "left-up" ∧ new_rotation = RR_Rotate_90) ∨
    (label = "bottom-up" ∧ new_rotation = RR_Rotate_180) ∨
    (label = "right-up" ∧ new_rotation = RR_Rotate_270) := by
  unfold new_rotation_of_label at hlabel
  by_cases h1 : label = "normal"
  · rw [if_pos h1] at hlabel
    exact Or.inl ⟨h1, (Option.some.inj hlabel).symm⟩
  rw [if_neg h1] at hlabel
  by_cases h2 : label = "left-up"
  · rw [if_pos h2] at hlabel
    exact Or.inr (Or.inl ⟨h2, (Option.some.inj hlabel).symm⟩)
  rw [if_neg h2] at hlabel
  by_cases h3 : label = "bottom-up"
  · rw [if_pos h3] at hlabel
    exact Or.inr (Or.inr (Or.inl ⟨h3, (Option.some.inj hlabel).symm⟩))
  rw [if_neg h3] at hlabel
  by_cases h4 : label = "right-up"
  · rw [if_pos h4] at hlabel
    exact Or.inr (Or.inr (Or.inr ⟨h4, (Option.some.inj hlabel).symm⟩))
  rw [if_neg h4] at hlabel
  exact absurd hlabel (by simp)

/-- C4. The handler maps "normal" to rotation 0, "left-up" to 90, "bottom-up" to
180 and "right-up" to 270 degrees: with a display that opens and a screen
configuration that can be read, the first request of the run is the
set-rotation request with that rotation, and only device property writes
follow it. For every other label the handler opens no connection and sends
no request at all. -/
theorem properties_changed_label (XOpenDisplay : Option Display) (has_orientation : Bool)
    (label : String) :
    (new_rotation_of_label "normal" = some RR_Rotate_0 ∧
      new_rotation_of_label "left-up" = some RR_Rotate_90 ∧
      new_rotation_of_label "bottom-up" = some RR_Rotate_180 ∧
      new_rotation_of_label "right-up" = some RR_Rotate_270) ∧
    (∀ (dpy : Display) (cfg : XRRScreenConfiguration) (new_rotation : Nat),
      dpy.server.screen_info = some cfg → new_rotation_of_label label = some new_rotation →
      ∃ after writes, properties_changed (some dpy) true label = some after ∧
        after.sent = dpy.sent ++
          Request.XRRSetScreenConfig cfg.current_size new_rotation CurrentTime :: writes ∧
        ∀ r ∈ writes, r.isPropertyWrite = true) ∧
    (label ≠ "normal" → label ≠ "left-up" → label ≠ "bottom-up" → label ≠ "right-up" →
      new_rotation_of_label label = none ∧
      properties_changed XOpenDisplay has_orientation label = none ∧
      requests (properties_changed XOpenDisplay has_orientation label) = []) := by
  refine ⟨⟨by decide, by decide, by decide, by decide⟩, ?_, ?_⟩
  · intro dpy cfg new_rotation hcfg hlabel
    exact properties_changed_sent dpy cfg label new_rotation hcfg hlabel
  · intro h1 h2 h3 h4
    have hnone : new_rotation_of_label label = none := by
      simp [new_rotation_of_label, h1, h2, h3, h4]
    have hrun : properties_changed XOpenDisplay has_orientation label = none := by
      unfold properties_changed
      rw [hnone]
      cases has_orientation <;> simp
    exact ⟨hnone, hrun, by rw [hrun]; rfl⟩

/-- C4 on the label "foo": no request is sent. -/
theorem properties_changed_label_witness :
    requests (properties_changed (some panel) true "foo") = [] :=
  ((properties_changed_label (some panel) true "foo").2.2
    (by decide) (by decide) (by decide) (by decide)).2.2

/-- C6, as the code has it. For a recognised label, the value passed to the
set-rotation call is the rotation bit of the label alone: none of its
reflection bits is set, whatever the current rotation and reflection are, so
it agrees with the current reflection only when there is none. It is the
only set-rotation request of the run. -/
theorem properties_changed_sends_rotation_only (dpy : Display)
    (cfg : XRRScreenConfiguration) (label : String) (new_rotation : Nat)
    (hcfg : dpy.server.screen_info = some cfg)
    (hlabel : new_rotation_of_label label = some new_rotation) :
    ∃ after writes, properties_changed (some dpy) true label = some after ∧
      after.sent = dpy.sent ++
        Request.XRRSetScreenConfig cfg.current_size new_rotation CurrentTime :: writes ∧
      (∀ r ∈ writes, r.isPropertyWrite = true) ∧
      new_rotation &&& RR_Reflect_All = 0 ∧
      (new_rotation &&& RR_Reflect_All = cfg.current_rotation &&& RR_Reflect_All ↔
        cfg.current_rotation &&& RR_Reflect_All = 0) := by
  obtain ⟨after, writes, hrun, hsent, hwrites⟩ :=
    properties_changed_sent dpy cfg label new_rotation hcfg hlabel
  have hbits : new_rotation &&& RR_Reflect_All = 0 := by
    rcases new_rotation_of_label_some label new_rotation hlabel with
      ⟨_, h⟩ | ⟨_, h⟩ | ⟨_, h⟩ | ⟨_, h⟩ <;> rw [h] <;> decide
  refine ⟨after, writes, hrun, hsent, hwrites, hbits, ?_⟩
  rw [hbits]
  exact eq_comm

/-- C6 on the panel in its normal orientation turned left-up: the request
carries `RR_Rotate_90`, and the current reflection is none. -/
theorem properties_changed_sends_rotation_only_witness :
    ∃ after writes, properties_changed (some panel) true "left-up" = some after ∧
      after.sent = Request.XRRSetScreenConfig 0 RR_Rotate_90 CurrentTime :: writes ∧
      RR_Rotate_90 &&& RR_Reflect_All = RR_Rotate_0 &&& RR_Reflect_All := by
  obtain ⟨after, writes, hrun, hsent, _, hbits, _⟩ :=
    properties_changed_sends_rotation_only panel ⟨0, RR_Rotate_0⟩ "left-up" RR_Rotate_90
      rfl (by decide)
  exact ⟨after, writes, hrun, hsent, hbits⟩

/-- C6 as claimed fails: the panel is shown reflected along X
(`RR_Rotate_0 | RR_Reflect_X`) and the sensor reports "left-up". The handler
passes `RR_Rotate_90` to the set-rotation call; the reflection bit that was
current is not in it. -/
theorem properties_changed_drops_reflection :
    reflectedPanel.server.screen_info
      = some { current_size := 0, current_rotation := RR_Rotate_0 ||| RR_Reflect_X } ∧
    (RR_Rotate_0 ||| RR_Reflect_X) &&& RR_Reflect_All = RR_Reflect_X ∧
    new_rotation_of_label "left-up" = some RR_Rotate_90 ∧
    requests (properties_changed (some reflectedPanel) true "left-up")
      = [Request.XRRSetScreenConfig 0 RR_Rotate_90 CurrentTime,
         Request.XIChangeProperty 2 158 291 32 PropModeReplace [0, -1, 1, 1, 0, 0, 0, 0, 1] 9,
         Request.XIChangeProperty 11 158 291 32 PropModeReplace [0, -1, 1, 1, 0, 0, 0, 0, 1] 9] ∧
    RR_Rotate_90 ≠ RR_Rotate_90 ||| ((RR_Rotate_0 ||| RR_Reflect_X) &&& RR_Reflect_All) ∧
    RR_Rotate_90 &&& RR_Reflect_All ≠ (RR_Rotate_0 ||| RR_Reflect_X) &&& RR_Reflect_All := by
  refine ⟨by decide, by decide, by decide, by decide!, by decide, by decide⟩

/-! ## The matrix as a map of the unit square -/

/-- A matrix with bottom row `[0,0,1]` acts as an affine map. -/
theorem Matrix.apply_ofRows (a b c d e f : ℚ) (p : ℚ × ℚ) :
    (Matrix.ofRows a b c d e f 0 0 1).apply p
      = (a * p.1 + b * p.2 + c, d * p.1 + e * p.2 + f) := by
  simp [Matrix.apply, Matrix.ofRows_entry_0_0, Matrix.ofRows_entry_0_1, Matrix.ofRows_entry_0_2,
    Matrix.ofRows_entry_1_0, Matrix.ofRows_entry_1_1, Matrix.ofRows_entry_1_2,
    Matrix.ofRows_entry_2_0, Matrix.ofRows_entry_2_1, Matrix.ofRows_entry_2_2]

/-- The matrix of a class maps the corners of the unit square onto the corners
of a rectangle of width `w` and height `h`; its origin is `(x, y)`, with
`xw - w` for `x` where the class negates `w` and `yh - h` for `y` where it
negates `h`. -/
theorem classMatrix_corners (x y w h xw yh : ℚ) (c : Bool × Bool × Bool) :
    Set.image (classMatrix x y w h xw yh c).apply {(0, 0), (1, 0), (0, 1), (1, 1)}
      = {((if c.2.1 then xw - w else x), (if c.2.2 then yh - h else y)),
         ((if c.2.1 then xw - w else x) + w, (if c.2.2 then yh - h else y)),
         ((if c.2.1 then xw - w else x), (if c.2.2 then yh - h else y) + h),
         ((if c.2.1 then xw - w else x) + w, (if c.2.2 then yh - h else y) + h)} := by
  obtain ⟨a, b, d⟩ := c
  have hx : -w + xw = xw - w := by ring
  have hy : -h + yh = yh - h := by ring
  have hx' : w + x = x + w := by ring
  have hy' : h + y = y + h := by ring
  rw [Set.image_insert_eq, Set.image_insert_eq, Set.image_insert_eq, Set.image_singleton]
  cases a <;> cases b <;> cases d <;>
    simp only [classMatrix, TableRow.matrix, Matrix.apply_ofRows, if_true, if_false,
      Bool.false_eq_true, mul_zero, mul_one, zero_mul, add_zero, zero_add, hx, hy, hx', hy',
      sub_add_cancel] <;>
    ext p <;>
    simp only [Set.mem_insert_iff, Set.mem_singleton_iff] <;>
    tauto

/-- The matrix of a class maps the unit square into that rectangle when `w` and
`h` are not negative. -/
theorem classMatrix_unit_square (x y w h xw yh : ℚ) (hw : 0 ≤ w) (hh : 0 ≤ h)
    (c : Bool × Bool × Bool) (u v : ℚ) (hu0 : 0 ≤ u) (hu1 : u ≤ 1) (hv0 : 0 ≤ v) (hv1 : v ≤ 1) :
    (if c.2.1 then xw - w else x) ≤ ((classMatrix x y w h xw yh c).apply (u, v)).1 ∧
    ((classMatrix x y w h xw yh c).apply (u, v)).1 ≤ (if c.2.1 then xw - w else x) + w ∧
    (if c.2.2 then yh - h else y) ≤ ((classMatrix x y w h xw yh c).apply (u, v)).2 ∧
    ((classMatrix x y w h xw yh c).apply (u, v)).2 ≤ (if c.2.2 then yh - h else y) + h := by
  have hwu0 : 0 ≤ w * u := mul_nonneg hw hu0
  have hwu1 : w * u ≤ w := mul_le_of_le_one_right hw hu1
  have hwv0 : 0 ≤ w * v := mul_nonneg hw hv0
  have hwv1 : w * v ≤ w := mul_le_of_le_one_right hw hv1
  have hhu0 : 0 ≤ h * u := mul_nonneg hh hu0
  have hhu1 : h * u ≤ h := mul_le_of_le_one_right hh hu1
  have hhv0 : 0 ≤ h * v := mul_nonneg hh hv0
  have hhv1 : h * v ≤ h := mul_le_of_le_one_right hh hv1
  obtain ⟨a, b, d⟩ := c
  cases a <;> cases b <;> cases d <;>
    simp only [classMatrix, TableRow.matrix, Matrix.apply_ofRows, if_true, if_false,
      Bool.false_eq_true, zero_mul, add_zero, zero_add, neg_mul] <;>
    refine ⟨?_, ?_, ?_, ?_⟩ <;> linarith

/-- C10, as the code has it. For each of the 16 (rotation, reflection) pairs
and every geometry with positive total width and height, with `x, y, w, h` the
`float` values the code computes: the matrix, applied as a homogeneous
transform, maps the set of the four corners of the unit square onto the set
of the four corners of the rectangle of width `w` and height `h` with origin
`(a, b)`, where `a` is `x` in the rows whose `diag1` is `w` and
`float_add x w - w` in the rows whose `diag1` is `-w`, and `b` likewise from
`y` and `h`. When the output width and height are not negative, every point
of the unit square is mapped into `[a, a+w] x [b, b+h]`. When the `float`
sums `x + w` and `y + h` are exact, `(a, b)` is `(x, y)`. -/
theorem set_transformation_matrix_maps_unit_square (dpy : Display) (m : Matrix)
    (offset_x offset_y screen_width screen_height : Int)
    (rot : RotationState) (refl : ReflectionState)
    (htw : 0 < dpy.server.display_width) (hth : 0 < dpy.server.display_height) :
    let x : ℚ := normalised offset_x dpy.server.display_width
    let y : ℚ := normalised offset_y dpy.server.display_height
    let w : ℚ := normalised screen_width dpy.server.display_width
    let h : ℚ := normalised screen_height dpy.server.display_height
    let a : ℚ := if (tableClass rot refl).2.1 then float_add x w - w else x
    let b : ℚ := if (tableClass rot refl).2.2 then float_add y h - h else y
    let M := set_transformation_matrix dpy m offset_x offset_y screen_width screen_height
      (rotationMask rot refl)
    Set.image M.apply {(0, 0), (1, 0), (0, 1), (1, 1)}
      = {(a, b), (a + w, b), (a, b + h), (a + w, b + h)} ∧
    (0 ≤ screen_width → 0 ≤ screen_height →
      ∀ u v : ℚ, 0 ≤ u → u ≤ 1 → 0 ≤ v → v ≤ 1 →
        a ≤ (M.apply (u, v)).1 ∧ (M.apply (u, v)).1 ≤ a + w ∧
        b ≤ (M.apply (u, v)).2 ∧ (M.apply (u, v)).2 ≤ b + h) ∧
    (float_add x w = x + w → float_add y h = y + h → a = x ∧ b = y) := by
  intro x y w h a b M
  have hM : M = classMatrix x y w h (float_add x w) (float_add y h) (tableClass rot refl) :=
    set_transformation_matrix_class dpy m offset_x offset_y screen_width screen_height rot refl
  rw [hM]
  refine ⟨classMatrix_corners x y w h _ _ _, ?_, ?_⟩
  · intro hsw hsh u v hu0 hu1 hv0 hv1
    exact classMatrix_unit_square x y w h _ _ (normalised_nonneg _ _ hsw htw)
      (normalised_nonneg _ _ hsh hth) _ u v hu0 hu1 hv0 hv1
  · intro hxw hyh
    constructor
    · show (if (tableClass rot refl).2.1 then float_add x w - w else x) = x
      split
      · rw [hxw]; ring
      · rfl
    · show (if (tableClass rot refl).2.2 then float_add y h - h else y) = y
      split
      · rw [hyh]; ring
      · rfl

/-- C10 on the panel turned by 90 degrees and filling the screen: the corners
of the unit square go to the corners of the unit square. -/
theorem set_transformation_matrix_maps_unit_square_witness :
    Set.image (set_transformation_matrix panel zeroMatrix 0 0 1920 1080 RR_Rotate_90).apply
        {(0, 0), (1, 0), (0, 1), (1, 1)}
      = {(0, 0), (1, 0), (0, 1), (1, 1)} := by
  have h := (set_transformation_matrix_maps_unit_square panel zeroMatrix 0 0 1920 1080
    RotationState.rotate90 ReflectionState.none (by decide) (by decide)).1
  have hm : rotationMask RotationState.rotate90 ReflectionState.none = RR_Rotate_90 := by decide
  have e1 : normalised 1920 panel.server.display_width = 1 := normalised_self 1920 (by decide)
  have e2 : normalised 1080 panel.server.display_height = 1 := normalised_self 1080 (by decide)
  have e3 : float_add 0 1 = 1 := by
    rw [float_add, zero_add]
    exact float_round_one.2
  rw [hm] at h
  simp only [normalised_zero, e1, e2, e3, tableClass, if_true, Bool.false_eq_true, if_false,
    sub_self, zero_add] at h
  exact h

/-- C10 as claimed fails. On a screen of 3286x1080 with the output of 1366x768
at (1920, 0) turned by 180 degrees, the `float` sum `x + w` rounds up to 1, so
the corner (1,0) goes to `1 - w`, which is 19605755/33554432, in the first
coordinate: that is neither `x` nor `x + w`, for the `float` values as for
the exact quotients. Its second coordinate 11930465/16777216 is above the
exact `y + h`, and the corner (0,0) goes to 1 in the first coordinate, above
the `float` `x + w`: the images leave the rectangle in either reading. And
with a negative output width (-1920 on the panel) the corner (1,0) goes to
-1, outside `[x, x + w]` with `x = 0`. -/
theorem set_transformation_matrix_corner_off :
    (set_transformation_matrix wideDesk zeroMatrix 1920 0 1366 768 RR_Rotate_180).apply (1, 0)
      = (19605755 / 33554432, 11930465 / 16777216) ∧
    (set_transformation_matrix wideDesk zeroMatrix 1920 0 1366 768 RR_Rotate_180).apply (0, 0)
      = (1, 11930465 / 16777216) ∧
    normalised 1920 wideDesk.server.display_width = 9802877 / 16777216 ∧
    normalised 1366 wideDesk.server.display_width = 13948677 / 33554432 ∧
    (19605755 / 33554432 : ℚ) ≠ 9802877 / 16777216 ∧
    (19605755 / 33554432 : ℚ) ≠ 9802877 / 16777216 + 13948677 / 33554432 ∧
    (19605755 / 33554432 : ℚ) ≠ 1920 / 3286 ∧
    (19605755 / 33554432 : ℚ) ≠ 1920 / 3286 + 1366 / 3286 ∧
    (0 / 1080 + 768 / 1080 : ℚ) < 11930465 / 16777216 ∧
    (9802877 / 16777216 + 13948677 / 33554432 : ℚ) < 1 ∧
    (set_transformation_matrix panel zeroMatrix 0 0 (-1920) 1080 RR_Rotate_0).apply (1, 0)
      = (-1, 0) ∧
    normalised 0 panel.server.display_width = 0 ∧
    normalised (-1920) panel.server.display_width = -1 := by
  refine ⟨by decide!, by decide!, by decide!, by decide!, by norm_num, by norm_num,
    by norm_num, by norm_num, by norm_num, by norm_num, by decide!, by decide!, by decide!⟩

end AutoRotate
